import Mathlib

/-!
Shallow embedding of `scripts/ffff.py` from bootrom-tools: the FFFF header
codec (`pack`/`unpack`), the structural validator (`validate_ffff_header`,
`validate_element_table`), the layout planner (`post_process`) and the
add-element operation.  Mutable methods are embedded as state-passing
functions on an immutable `Ffff` record; the shared flash buffer is a
function from absolute byte offsets to byte values.

`ffff_element.py` and `util.py` are imported by `ffff.py` but are not part
of the sources; the constants and the element codec / utility helpers they
provide are modelled from the specification and are marked as such below.
-/

set_option autoImplicit false

/-- Modelled from the spec: fixed header length (`FFFF_HDR_LENGTH` from
`ffff_element.py`, not in the sources); the fixed minimum header length the
spec speaks about.  The concrete value is one fixed power of two large
enough to hold the 100-byte fixed field region, the element table and the
16-byte trailing sentinel. -/
def FFFF_HDR_LENGTH : Nat := 4096

/-- Modelled from the spec: the fixed maximum header block size
(`FFFF_MAX_HEADER_BLOCK_SIZE` from `ffff_element.py`, not in the sources). -/
def FFFF_MAX_HEADER_BLOCK_SIZE : Nat := 65536

/-- Offset of the flash image name: sentinel[16] then timestamp[16]
(per the spec's fixed little-endian layout). -/
def FFFF_HDR_OFF_FLASH_IMAGE_NAME : Nat := 32

/-- Offset of the flash capacity field: sentinel[16], timestamp[16],
image_name[48] (per the spec's fixed little-endian layout). -/
def FFFF_HDR_OFF_FLASH_CAPACITY : Nat := 80

/-- Offset of the element table: the fixed header region is
sentinel[16], timestamp[16], image_name[48] and five u32 fields
(per the spec's fixed little-endian layout). -/
def FFFF_HDR_OFF_ELEMENT_TBL : Nat := 100

/-- Modelled from the spec: the trailing sentinel sits at its own fixed
offset at the end of the fixed-length header region
(`FFFF_HDR_LENGTH - 16`). -/
def FFFF_HDR_OFF_TAIL_SENTINEL : Nat := 4080

/-- Modelled from the spec: byte length of one element-table entry
(`FFFF_ELT_LENGTH` from `ffff_element.py`, not in the sources): five
u32 fields (type, id, generation, location, length). -/
def FFFF_ELT_LENGTH : Nat := 20

/-- Modelled from the spec: the fixed maximum element count
(`FFFF_MAX_ELEMENTS` from `ffff_element.py`, not in the sources). -/
def FFFF_MAX_ELEMENTS : Nat := 19

/-- Modelled from the spec: the reserved "end of element table" marker for
the element type field (`FFFF_ELEMENT_END_OF_ELEMENT_TABLE` from
`ffff_element.py`, not in the sources).  The spec requires the region after
the last populated entry to be zero-filled and the decode loop to stop at
the first entry carrying this marker, so the marker value is the zero fill. -/
def FFFF_ELEMENT_END_OF_ELEMENT_TABLE : Nat := 0

/-- Modelled from the spec: the fixed 16-byte magic (`FFFF_SENTINEL` from
`ffff_element.py`, not in the sources), as a byte string. -/
def FFFF_SENTINEL : List Nat :=
  [70, 108, 97, 115, 104, 70, 111, 114, 109, 97, 116, 70, 111, 114, 70, 87]

/-- Modelled from the spec: maximum width of the flash image name field. -/
def FFFF_FLASH_IMAGE_NAME_LENGTH : Nat := 48

/-- Modelled from the spec: verdict constant for a valid header. -/
def FFFF_HDR_VALID : Nat := 0

/-- Modelled from the spec: verdict constant for an erased header. -/
def FFFF_HDR_ERASED : Nat := 1

/-- Modelled from the spec: verdict constant for an invalid header. -/
def FFFF_HDR_INVALID : Nat := 2

/-- Modelled from the spec: the distinguished marker recorded in a
collision list when an element collides with the reserved header region
(`FFFF_HEADER_COLLISION` from `ffff_element.py`, not in the sources);
distinguished from every real element index. -/
def FFFF_HEADER_COLLISION : Int := -1

/-- A flash buffer: the byte stored at each absolute offset.  Models the
Python `bytearray` shared by the header and its elements. -/
def Buf : Type := Nat → Nat

/-- Bulk in-place write of a byte list at an offset: models
`struct.pack_into` and Python slice assignment on the buffer. -/
def writeBytes (b : Buf) (off : Nat) (data : List Nat) : Buf :=
  fun i => if off ≤ i ∧ i < off + data.length then data.getD (i - off) 0 else b i

/-- Read `n` bytes starting at an offset: models `struct.unpack_from`
string fields and Python buffer slicing. -/
def readBytes (b : Buf) : Nat → Nat → List Nat
  | _, 0 => []
  | off, n + 1 => b off :: readBytes b (off + 1) n

/-- Little-endian 4-byte encoding of an unsigned 32-bit value
(`struct` format "<L" on pack). -/
def u32le (v : Nat) : List Nat :=
  [v % 256, v / 256 % 256, v / 65536 % 256, v / 16777216 % 256]

/-- Little-endian read of an unsigned 32-bit value
(`struct` format "<L" on unpack); bytearray entries are bytes. -/
def readU32 (b : Buf) (off : Nat) : Nat :=
  b off % 256 + 256 * (b (off + 1) % 256) + 65536 * (b (off + 2) % 256) +
    16777216 * (b (off + 3) % 256)

/-- Models `struct` "Ns" packing: truncate or zero-pad a byte string to width `w`. -/
def packStr (s : List Nat) (w : Nat) : List Nat :=
  s.take w ++ List.replicate (w - s.length) 0

/-- Modelled from the spec: `util.is_constant_fill` (`util.py` is not in the
sources) — true iff every byte of the span equals the fill byte. -/
def is_constant_fill (span : List Nat) (fill : Nat) : Bool :=
  span.all (fun byte => byte == fill)

/-- Modelled from the spec: `util.is_power_of_2` (`util.py` is not in the
sources). -/
def is_power_of_2 (n : Nat) : Bool :=
  (n != 0) && (n &&& (n - 1) == 0)

/-- Modelled from the spec: `util.next_boundary` (`util.py` is not in the
sources) — the next multiple of `block` at or after `x`. -/
def next_boundary (x block : Nat) : Nat :=
  (x + block - 1) / block * block

/-- One FFFF element-table entry.  `ffff_element.py` is not in the sources;
the fields are the ones the spec's data model gives an element
(index, identity triple, location, length). -/
structure FfffElement where
  index : Nat
  element_type : Nat
  element_id : Nat
  element_generation : Nat
  element_location : Nat
  element_length : Nat
deriving Repr, DecidableEq

/-- Default element used with `List.getD`. -/
def dElt : FfffElement :=
  { index := 0, element_type := 0, element_id := 0, element_generation := 0,
    element_location := 0, element_length := 0 }

/-- Modelled from the spec: the byte image of one element-table entry
written by the element codec — its five u32 fields in little-endian order. -/
def elementBytes (e : FfffElement) : List Nat :=
  u32le e.element_type ++ u32le e.element_id ++ u32le e.element_generation ++
    u32le e.element_location ++ u32le e.element_length

/-- Modelled from the spec: `FfffElement.pack` — encode one entry into the
buffer at `offset` and return the next free offset. -/
def FfffElement.pack (e : FfffElement) (buf : Buf) (offset : Nat) : Buf × Nat :=
  (writeBytes buf offset (elementBytes e), offset + FFFF_ELT_LENGTH)

/-- Modelled from the spec: `FfffElement.unpack` — decode one entry at
`offset`; the Bool is the "this slot is unused" signal, raised exactly when
the type field carries the end-of-table marker. -/
def FfffElement.unpack (buf : Buf) (offset index : Nat) : FfffElement × Bool :=
  let t := readU32 buf offset
  ({ index := index, element_type := t,
     element_id := readU32 buf (offset + 4),
     element_generation := readU32 buf (offset + 8),
     element_location := readU32 buf (offset + 12),
     element_length := readU32 buf (offset + 16) },
   t == FFFF_ELEMENT_END_OF_ELEMENT_TABLE)

/-- Modelled from the spec: `FfffElement.validate` — the element's own
bounds check against the permitted range handed to it by the table scan. -/
def FfffElement.validate (e : FfffElement) (location_min location_max : Nat) : Bool :=
  decide (location_min ≤ e.element_location ∧
    e.element_location + e.element_length ≤ location_max)

/-- The FFFF header state (`class Ffff`, `ffff.py` lines 58-96).  The source's
line 267 assigns the misspelled attribute `duplicatess_found`; Python happily
creates it next to `duplicates_found`, so the state carries both. -/
structure Ffff where
  sentinel : List Nat
  timestamp : List Nat
  flash_image_name : List Nat
  flash_capacity : Nat
  erase_block_size : Nat
  header_size : Nat
  flash_image_length : Nat
  header_generation_number : Nat
  elements : List FfffElement
  padding : List Nat
  tail_sentinel : List Nat
  ffff_buf : Buf
  header_offset : Nat
  collisions : List (List Int)
  collisions_found : Bool
  duplicates : List (List Int)
  duplicates_found : Bool
  duplicatess_found : Bool
  invalid_elements_found : Bool
  header_validity : Nat
  element_location_min : Nat
  element_location_max : Nat

/-- Embeds `header_block_size` (`ffff.py` lines 47-54): the first size in
`range(erase_block_size, FFFF_MAX_HEADER_BLOCK_SIZE)` that exceeds
`FFFF_HDR_LENGTH`; `none` models Python falling off the loop (returns None). -/
def header_block_size (erase_block_size : Nat) : Option Nat :=
  (List.range' erase_block_size (FFFF_MAX_HEADER_BLOCK_SIZE - erase_block_size)).find?
    (fun size => decide (size > FFFF_HDR_LENGTH))

/-- View of `Ffff.header_block_size` as used in arithmetic contexts
(`2 * self.header_block_size()`); Python would raise on `None`, the claims
only use it where the Option is populated. -/
def hbsD (erase_block_size : Nat) : Nat :=
  (header_block_size erase_block_size).getD 0

/-- Embeds `Ffff.__init__` (`ffff.py` lines 70-96). -/
def Ffff.init (buf : Buf) (offset : Nat) (flash_image_name : List Nat)
    (flash_capacity erase_block_size image_length header_generation_number : Nat) :
    Ffff :=
  { sentinel := [], timestamp := [], flash_image_name := flash_image_name,
    flash_capacity := flash_capacity, erase_block_size := erase_block_size,
    header_size := FFFF_HDR_LENGTH, flash_image_length := image_length,
    header_generation_number := header_generation_number, elements := [],
    padding := [], tail_sentinel := [], ffff_buf := buf, header_offset := offset,
    collisions := [], collisions_found := false, duplicates := [],
    duplicates_found := false, duplicatess_found := false,
    invalid_elements_found := false, header_validity := FFFF_HDR_VALID,
    element_location_min := 2 * hbsD erase_block_size,
    element_location_max := image_length }

/-- Element-table decode loop of `Ffff.unpack` (`ffff.py` lines 125-139):
`for index in range(FFFF_MAX_ELEMENTS)`, appending entries and stopping at
the first unused one.  The fuel argument is the number of loop iterations
left (`FFFF_MAX_ELEMENTS - index`). -/
def unpack_elements (buf : Buf) : Nat → Nat → Nat → List FfffElement
  | _, _, 0 => []
  | offset, index, fuel + 1 =>
    let r := FfffElement.unpack buf offset index
    if r.2 then []
    else r.1 :: unpack_elements buf (offset + FFFF_ELT_LENGTH) (index + 1) fuel

/-- Element-table encode loop of `Ffff.pack` (`ffff.py` lines 168-170):
each entry's codec returns the next free offset. -/
def pack_elements (buf : Buf) (offset : Nat) : List FfffElement → Buf
  | [] => buf
  | e :: rest =>
    let r := FfffElement.pack e buf offset
    pack_elements r.1 r.2 rest

/-- The pairwise overlap condition exactly as `validate_element_table`
computes it (`ffff.py` lines 250-254), with Python's signed arithmetic:
`end_b >= start_a and start_b <= end_a` where `end_x = start_x + len_x - 1`. -/
def overlap_cond (a b : FfffElement) : Prop :=
  (b.element_location : Int) + b.element_length - 1 ≥ a.element_location ∧
    (b.element_location : Int) ≤ (a.element_location : Int) + a.element_length - 1

instance (a b : FfffElement) : Decidable (overlap_cond a b) := by
  unfold overlap_cond; infer_instance

/-- Inner `j` loop of `validate_element_table` (`ffff.py` lines 240-268) for
element `a` at index `i`, scanning the full element list from index `j`:
returns the collision-list additions, the duplicate-list additions, whether a
pairwise collision was found, and whether a duplicate was found (the flag the
source's line 267 stores into the misspelled `duplicatess_found`).  The
source's call `elt_a.validate_against(elt_b)` discards its result and is
dropped.  The `i != j` guard skips the whole body, so the end-of-table break
only triggers at indices other than `i`. -/
def element_scan (a : FfffElement) (i : Nat) :
    List FfffElement → Nat → List Int × List Int × Bool × Bool
  | [], _ => ([], [], false, false)
  | b :: rest, j =>
    if i = j then element_scan a i rest (j + 1)
    else if b.element_type = FFFF_ELEMENT_END_OF_ELEMENT_TABLE then
      ([], [], false, false)
    else
      let hit : Bool := decide (overlap_cond a b)
      let dup : Bool := decide (a.element_type = b.element_type ∧
        a.element_id = b.element_id ∧
        a.element_generation = b.element_generation)
      let r := element_scan a i rest (j + 1)
      ((if hit then [(j : Int)] else []) ++ r.1,
       (if dup then [(j : Int)] else []) ++ r.2.1,
       hit || r.2.2.1, dup || r.2.2.2)

/-- Outer `i` loop of `validate_element_table` (`ffff.py` lines 220-271),
scanning the suffix of the element list starting at index `i`; `all` is the
complete element list the inner loop re-enumerates.  Returns the per-index
collision rows, the per-index duplicate rows, `collisions_found`,
the duplicate flag (stored into `duplicatess_found` by the source) and
`invalid_elements_found`. -/
def table_scan (all : List FfffElement)
    (location_min location_max hdr_span : Nat) :
    List FfffElement → Nat →
      List (List Int) × List (List Int) × Bool × Bool × Bool
  | [], _ => ([], [], false, false, false)
  | a :: rest, i =>
    if a.element_type = FFFF_ELEMENT_END_OF_ELEMENT_TABLE then
      ([], [], false, false, false)
    else
      let inv : Bool := ! a.validate location_min location_max
      let hdr_hit : Bool := decide (a.element_location < hdr_span)
      let head_coll : List Int := if hdr_hit then [FFFF_HEADER_COLLISION] else []
      let s := element_scan a i all 0
      let r := table_scan all location_min location_max hdr_span rest (i + 1)
      ((head_coll ++ s.1) :: r.1,
       s.2.1 :: r.2.1,
       hdr_hit || s.2.2.1 || r.2.2.1,
       s.2.2.2 || r.2.2.2.1,
       inv || r.2.2.2.2)

/-- Embeds `validate_element_table` (`ffff.py` lines 207-280): reset the aggregate
fields, run the scan, store the results and return the pass flag.  Line 267
of the source stores the duplicate flag into the misspelled attribute
`duplicatess_found`, so the `duplicates_found` field read by the return
statement keeps its freshly reset value `false`. -/
def Ffff.validate_element_table (f : Ffff) : Ffff × Bool :=
  let r := table_scan f.elements f.element_location_min f.element_location_max
    (2 * hbsD f.erase_block_size) f.elements 0
  let f' := { f with collisions := r.1, duplicates := r.2.1,
                     collisions_found := r.2.2.1,
                     duplicates_found := false,
                     duplicatess_found := r.2.2.2.1,
                     invalid_elements_found := r.2.2.2.2 }
  (f', ! f'.collisions_found && ! f'.duplicates_found &&
    ! f'.invalid_elements_found)

/-- Embeds `validate_ffff_header` (`ffff.py` lines 282-331): erasure check, sentinel
check, size checks, padding check, element-table check, short-circuiting on
the first failure.  Note the source's padding span: it computes
`span_end = header_offset + FFFF_HDR_OFF_TAIL_SENTINEL - span_start` and then
slices `ffff_buf[span_start:span_end]`. -/
def Ffff.validate_ffff_header (f0 : Ffff) : Ffff × Nat :=
  let f := { f0 with header_validity := FFFF_HDR_VALID }
  let span := readBytes f.ffff_buf f.header_offset FFFF_HDR_LENGTH
  if is_constant_fill span 0 || is_constant_fill span 255 then
    ({ f with header_validity := FFFF_HDR_ERASED }, FFFF_HDR_ERASED)
  else if f.sentinel ≠ FFFF_SENTINEL ∨ f.tail_sentinel ≠ FFFF_SENTINEL then
    ({ f with header_validity := FFFF_HDR_INVALID }, FFFF_HDR_INVALID)
  else if is_power_of_2 f.erase_block_size = false then
    ({ f with header_validity := FFFF_HDR_INVALID }, FFFF_HDR_INVALID)
  else if f.flash_image_length % f.erase_block_size ≠ 0 then
    ({ f with header_validity := FFFF_HDR_INVALID }, FFFF_HDR_INVALID)
  else
    let span_start := f.header_offset + FFFF_HDR_OFF_ELEMENT_TBL +
      f.elements.length * FFFF_ELT_LENGTH
    let span_end := f.header_offset + FFFF_HDR_OFF_TAIL_SENTINEL - span_start
    if is_constant_fill (readBytes f.ffff_buf span_start (span_end - span_start))
        0 = false then
      ({ f with header_validity := FFFF_HDR_INVALID }, FFFF_HDR_INVALID)
    else
      let r := Ffff.validate_element_table f
      if r.2 = false then
        ({ r.1 with header_validity := FFFF_HDR_INVALID }, FFFF_HDR_INVALID)
      else (r.1, r.1.header_validity)

/-- Embeds `Ffff.unpack` (`ffff.py` lines 101-140): read the fixed fields and the
trailing sentinel at `header_offset`, then decode the element table starting
at the absolute offset `FFFF_HDR_OFF_ELEMENT_TBL` (the source does not add
`header_offset` there), then run `validate_ffff_header`. -/
def Ffff.unpack (f : Ffff) : Ffff :=
  let buf := f.ffff_buf
  let off := f.header_offset
  let f1 := { f with
    sentinel := readBytes buf off 16,
    timestamp := readBytes buf (off + 16) 16,
    flash_image_name := readBytes buf (off + FFFF_HDR_OFF_FLASH_IMAGE_NAME) 48,
    flash_capacity := readU32 buf (off + FFFF_HDR_OFF_FLASH_CAPACITY),
    erase_block_size := readU32 buf (off + FFFF_HDR_OFF_FLASH_CAPACITY + 4),
    header_size := readU32 buf (off + FFFF_HDR_OFF_FLASH_CAPACITY + 8),
    flash_image_length := readU32 buf (off + FFFF_HDR_OFF_FLASH_CAPACITY + 12),
    header_generation_number := readU32 buf (off + FFFF_HDR_OFF_FLASH_CAPACITY + 16),
    tail_sentinel := readBytes buf (off + FFFF_HDR_OFF_TAIL_SENTINEL) 16 }
  let f2 := { f1 with
    element_location_min := 2 * hbsD f1.erase_block_size,
    element_location_max := f1.flash_capacity,
    elements := unpack_elements buf FFFF_HDR_OFF_ELEMENT_TBL 0 FFFF_MAX_ELEMENTS }
  (Ffff.validate_ffff_header f2).1

/-- Embeds `Ffff.pack` (`ffff.py` lines 142-170).  The fresh `strftime` timestamp is
an input; the source stores it in a local variable and writes it only into
the buffer, never into `self.timestamp`.  The image name is written only when
non-empty; the header-size u32 written is the constant `FFFF_HDR_LENGTH`. -/
def Ffff.pack (f : Ffff) (timestamp : List Nat) : Ffff :=
  let buf1 := writeBytes f.ffff_buf f.header_offset
    (packStr f.sentinel 16 ++ packStr timestamp 16)
  let buf2 := if f.flash_image_name ≠ [] then
      writeBytes buf1 (f.header_offset + FFFF_HDR_OFF_FLASH_IMAGE_NAME)
        (packStr f.flash_image_name 48)
    else buf1
  let buf3 := writeBytes buf2 (f.header_offset + FFFF_HDR_OFF_FLASH_CAPACITY)
    (u32le f.flash_capacity ++ u32le f.erase_block_size ++
      u32le FFFF_HDR_LENGTH ++ u32le f.flash_image_length ++
      u32le f.header_generation_number)
  let buf4 := writeBytes buf3 (f.header_offset + FFFF_HDR_OFF_TAIL_SENTINEL)
    (packStr f.tail_sentinel 16)
  let buf5 := pack_elements buf4 (f.header_offset + FFFF_HDR_OFF_ELEMENT_TBL)
    f.elements
  { f with ffff_buf := buf5 }

/-- The loading path (spec §4.1 Decode): construct a fresh header on the
buffer and unpack it; the constructor arguments other than buffer and offset
are overwritten by `unpack`. -/
def Ffff.decode (buf : Buf) (offset : Nat) : Ffff :=
  Ffff.unpack (Ffff.init buf offset [] 0 0 0 0)

/-- Embeds `Ffff.add_element` (`ffff.py` lines 172-205).  The external
`FfffElement.init` result and the TFTF blob bytes it would load are inputs
(`ffff_element.py` and the TFTF codec are not in the sources; modelled from
the spec).  On success the blob is copied into the buffer at the element's
location. -/
def Ffff.add_element (f : Ffff)
    (element_type element_id element_generation element_location
      element_length : Nat) (init_ok : Bool) (blob : List Nat) : Ffff × Bool :=
  if f.elements.length < FFFF_MAX_ELEMENTS then
    let element : FfffElement :=
      { index := f.elements.length, element_type := element_type,
        element_id := element_id, element_generation := element_generation,
        element_location := element_location, element_length := element_length }
    if init_ok then
      ({ f with elements := f.elements ++ [element],
                ffff_buf := writeBytes f.ffff_buf element.element_location blob },
       true)
    else (f, false)
  else (f, false)

/-- Layout loop of `post_process` (`ffff.py` lines 345-362): assign each
zero location from the running cursor, abort (`sys.exit`) when a span reaches
a nonzero image length, and advance the cursor to the next erase-block
boundary after the element's span.  Returns the relocated elements and the
final cursor, or `none` on the fatal abort. -/
def layout_elements (image_length ebs : Nat) :
    List FfffElement → Nat → Option (List FfffElement × Nat)
  | [], location => some ([], location)
  | e :: rest, location =>
    let e' := if e.element_location = 0 then
        { e with element_location := location }
      else e
    if image_length ≠ 0 ∧ e'.element_location + e'.element_length ≥ image_length
    then none
    else
      match layout_elements image_length ebs rest
        (next_boundary (e'.element_location + e'.element_length) ebs) with
      | none => none
      | some (rest', loc') => some (e' :: rest', loc')

/-- Embeds `Ffff.post_process` (`ffff.py` lines 333-381): run the layout loop
starting from the first element's location (Python raises on an empty list:
`none`), grow a zero image length to the final cursor, revalidate the table,
stamp sentinels/timestamp, trim the name, pack and run the final header
validation.  `none` also models the `sys.exit` abort inside the loop. -/
def Ffff.post_process (f : Ffff) (timestamp : List Nat) : Option Ffff :=
  match f.elements with
  | [] => none
  | e0 :: _ =>
    match layout_elements f.flash_image_length f.erase_block_size f.elements
      e0.element_location with
    | none => none
    | some (elements', final_loc) =>
      let f1 := { f with elements := elements' }
      let f2 := if f1.flash_image_length = 0 then
          { f1 with flash_image_length := final_loc }
        else f1
      let f3 := (Ffff.validate_element_table f2).1
      let f4 := { f3 with
        sentinel := FFFF_SENTINEL,
        timestamp := timestamp,
        flash_image_name := if f3.flash_image_name ≠ [] then
            f3.flash_image_name.take FFFF_FLASH_IMAGE_NAME_LENGTH
          else f3.flash_image_name,
        tail_sentinel := FFFF_SENTINEL }
      let f5 := Ffff.pack f4 timestamp
      some (Ffff.validate_ffff_header f5).1

/-- The identity-and-placement projection of an element the round-trip claim
compares: type, id, generation, location, length (everything but the
table index). -/
def elemKey (e : FfffElement) : Nat × Nat × Nat × Nat × Nat :=
  (e.element_type, e.element_id, e.element_generation, e.element_location,
    e.element_length)

/-- Reassign table indices sequentially from a start index: the element list
the decode loop reproduces from a packed table. -/
def reindexFrom : Nat → List FfffElement → List FfffElement
  | _, [] => []
  | i, e :: rest => { e with index := i } :: reindexFrom (i + 1) rest

/-- The per-element well-formedness the round-trip claim needs: a live type
and fields that fit the 32-bit wire format. -/
def elemWF (e : FfffElement) : Prop :=
  e.element_type ≠ FFFF_ELEMENT_END_OF_ELEMENT_TABLE ∧
    e.element_type < 4294967296 ∧ e.element_id < 4294967296 ∧
    e.element_generation < 4294967296 ∧ e.element_location < 4294967296 ∧
    e.element_length < 4294967296

instance (e : FfffElement) : Decidable (elemWF e) := by
  unfold elemWF; infer_instance

/-- Number of live entries: the prefix before the first end-of-table marker. -/
def liveCount (l : List FfffElement) : Nat :=
  (l.takeWhile (fun e =>
    e.element_type != FFFF_ELEMENT_END_OF_ELEMENT_TABLE)).length

/-- Stated from the spec's words for claim C2 (refinement comparison):
the smallest power-of-2 multiple of the erase block size that exceeds the
fixed minimum header length, capped at the fixed maximum header block size. -/
def spec_header_block_size (erase_block_size : Nat) : Nat :=
  min (((List.range 64).map (fun k => erase_block_size * 2 ^ k)).find?
        (fun v => decide (v > FFFF_HDR_LENGTH)) |>.getD 0)
    FFFF_MAX_HEADER_BLOCK_SIZE

/-- The all-zero flash buffer. -/
def zeroBuf : Buf := fun _ => 0

/-- A header whose element table holds two duplicates of the spec's example
identity (type 1, id 5, generation 2) at different, non-overlapping, in-range
locations; every other header ingredient is well-formed and the buffer is
zero apart from one nonzero byte that defeats the erasure check. -/
def f1dup : Ffff :=
  { sentinel := FFFF_SENTINEL, timestamp := [], flash_image_name := [],
    flash_capacity := 1048576, erase_block_size := 4096, header_size := 4096,
    flash_image_length := 1048576, header_generation_number := 1,
    elements := [
      { index := 0, element_type := 1, element_id := 5, element_generation := 2,
        element_location := 16384, element_length := 100 },
      { index := 1, element_type := 1, element_id := 5, element_generation := 2,
        element_location := 32768, element_length := 100 }],
    padding := [], tail_sentinel := FFFF_SENTINEL,
    ffff_buf := fun i => if i = 0 then 1 else 0, header_offset := 0,
    collisions := [], collisions_found := false, duplicates := [],
    duplicates_found := false, duplicatess_found := false,
    invalid_elements_found := false, header_validity := 0,
    element_location_min := 8194, element_location_max := 1048576 }

/-- A header that passes the erasure, sentinel and size checks, with an empty
element table, whose buffer carries one nonzero byte at offset 3990 — strictly
between the end of the element table (offset 100) and the start of the
trailing-sentinel field (offset 4080). -/
def f3pad : Ffff :=
  { sentinel := FFFF_SENTINEL, timestamp := [], flash_image_name := [],
    flash_capacity := 1048576, erase_block_size := 4096, header_size := 4096,
    flash_image_length := 0, header_generation_number := 1,
    elements := [],
    padding := [], tail_sentinel := FFFF_SENTINEL,
    ffff_buf := fun i => if i = 3990 then 7 else 0, header_offset := 0,
    collisions := [], collisions_found := false, duplicates := [],
    duplicates_found := false, duplicatess_found := false,
    invalid_elements_found := false, header_validity := 0,
    element_location_min := 8194, element_location_max := 1048576 }

/-- A valid-table header residing at the second header copy's offset 4096:
the round-trip counterexample for claim C4. -/
def f4off : Ffff :=
  { sentinel := FFFF_SENTINEL, timestamp := [], flash_image_name := List.replicate 48 120,
    flash_capacity := 1048576, erase_block_size := 4096, header_size := 4096,
    flash_image_length := 1048576, header_generation_number := 1,
    elements := [
      { index := 0, element_type := 1, element_id := 1, element_generation := 1,
        element_location := 16384, element_length := 64 }],
    padding := [], tail_sentinel := FFFF_SENTINEL,
    ffff_buf := zeroBuf, header_offset := 4096,
    collisions := [], collisions_found := false, duplicates := [],
    duplicates_found := false, duplicatess_found := false,
    invalid_elements_found := false, header_validity := 0,
    element_location_min := 8194, element_location_max := 1048576 }

/-- The same well-formed header at offset 0: witness input for the amended
round-trip claim. -/
def f4rt : Ffff := { f4off with header_offset := 0 }

/-- A 16-byte stand-in for a `strftime` timestamp. -/
def tsZ : List Nat := List.replicate 16 48

/-- Witness input for the layout-planner claim: three auto-placed elements of
lengths 100, 250, 50, erase block size 64, image length left at zero. -/
def f5lay : Ffff :=
  { f3pad with
    erase_block_size := 64,
    flash_image_length := 0,
    ffff_buf := zeroBuf,
    elements := [
      { index := 0, element_type := 1, element_id := 1, element_generation := 1,
        element_location := 0, element_length := 100 },
      { index := 1, element_type := 2, element_id := 2, element_generation := 1,
        element_location := 0, element_length := 250 },
      { index := 2, element_type := 3, element_id := 3, element_generation := 1,
        element_location := 0, element_length := 50 }] }

/-- Witness input for collision symmetry: the spec's example elements A at
[0x1000, 0x1100) and B at [0x1080, 0x1180). -/
def f6col : Ffff :=
  { f3pad with
    elements := [
      { index := 0, element_type := 1, element_id := 1, element_generation := 1,
        element_location := 4096, element_length := 256 },
      { index := 1, element_type := 1, element_id := 2, element_generation := 1,
        element_location := 4224, element_length := 256 }] }

/-- Witness input for the erasure claim: a header over an all-zero buffer. -/
def f7er : Ffff := { f1dup with ffff_buf := zeroBuf }

/-- An arbitrary live element used to fill a table to capacity. -/
def e8fill : FfffElement :=
  { index := 0, element_type := 1, element_id := 9, element_generation := 1,
    element_location := 16384, element_length := 32 }

/-- Witness input for table capacity: a header already holding
`FFFF_MAX_ELEMENTS` elements. -/
def f8full : Ffff := { f3pad with elements := List.replicate FFFF_MAX_ELEMENTS e8fill }

/-- Witness input for table capacity: a header with room left. -/
def f8one : Ffff := { f3pad with elements := [e8fill] }

/-- Witness input for claim C10: a header at offset 0 whose buffer differs
from `f10b`'s everywhere except the absolute element-table region. -/
def f10a : Ffff := { f3pad with ffff_buf := fun i => if i < 100 then 7 else 0 }

/-- Witness input for claim C10: a header at offset 4096 over the zero
buffer; its element-table region agrees with `f10a`'s. -/
def f10b : Ffff := { f3pad with ffff_buf := zeroBuf, header_offset := 4096 }

/-! ## Buffer lemmas -/

theorem writeBytes_apply_lt (b : Buf) (off : Nat) (data : List Nat) (i : Nat)
    (h : i < off) : writeBytes b off data i = b i := by
  have hc : ¬ (off ≤ i ∧ i < off + data.length) := by omega
  simp only [writeBytes, if_neg hc]

theorem writeBytes_apply_ge (b : Buf) (off : Nat) (data : List Nat) (i : Nat)
    (h : off + data.length ≤ i) : writeBytes b off data i = b i := by
  have hc : ¬ (off ≤ i ∧ i < off + data.length) := by omega
  simp only [writeBytes, if_neg hc]

theorem writeBytes_apply_get (b : Buf) (off : Nat) (data : List Nat) (k : Nat)
    (h : k < data.length) : writeBytes b off data (off + k) = data.getD k 0 := by
  have hc : off ≤ off + k ∧ off + k < off + data.length := by omega
  have hk : off + k - off = k := by omega
  simp only [writeBytes, if_pos hc, hk]

theorem readBytes_congr {b1 b2 : Buf} :
    ∀ (n off : Nat), (∀ k, k < n → b1 (off + k) = b2 (off + k)) →
      readBytes b1 off n = readBytes b2 off n := by
  intro n
  induction n with
  | zero => intro off _; rfl
  | succ m ih =>
    intro off h
    have h0 := h 0 (by omega)
    rw [Nat.add_zero] at h0
    simp only [readBytes, h0]
    rw [ih (off + 1) (fun k hk => by
      have := h (k + 1) (by omega)
      rwa [show off + (k + 1) = off + 1 + k by omega] at this)]

theorem readBytes_eq {l : List Nat} :
    ∀ (b : Buf) (off : Nat), (∀ k, k < l.length → b (off + k) = l.getD k 0) →
      readBytes b off l.length = l := by
  induction l with
  | nil => intro b off _; rfl
  | cons x xs ih =>
    intro b off h
    have h0 := h 0 (by simp)
    rw [Nat.add_zero, List.getD_cons_zero] at h0
    simp only [List.length_cons, readBytes, h0]
    rw [ih b (off + 1) (fun k hk => by
      have := h (k + 1) (by simpa using Nat.succ_lt_succ hk)
      rwa [show off + (k + 1) = off + 1 + k by omega,
        List.getD_cons_succ] at this)]

theorem readBytes_writeBytes (b : Buf) (off : Nat) (data : List Nat) :
    readBytes (writeBytes b off data) off data.length = data :=
  readBytes_eq _ off (fun k hk => writeBytes_apply_get b off data k hk)

theorem readBytes_writeBytes_left (b : Buf) (off : Nat) (d1 d2 : List Nat) :
    readBytes (writeBytes b off (d1 ++ d2)) off d1.length = d1 :=
  readBytes_eq _ off (fun k hk => by
    rw [writeBytes_apply_get b off _ k (by simp; omega),
      List.getD_append _ _ _ _ hk])

theorem readBytes_writeBytes_right (b : Buf) (off : Nat) (d1 d2 : List Nat) :
    readBytes (writeBytes b off (d1 ++ d2)) (off + d1.length) d2.length = d2 :=
  readBytes_eq _ _ (fun k hk => by
    rw [show off + d1.length + k = off + (d1.length + k) by omega,
      writeBytes_apply_get b off _ _ (by simp; omega),
      List.getD_append_right _ _ _ _ (by omega),
      show d1.length + k - d1.length = k by omega])

theorem packStr_of_length {s : List Nat} {w : Nat} (h : s.length = w) :
    packStr s w = s := by
  subst h
  simp [packStr]

theorem readU32_eq_of {b : Buf} {off : Nat} {v : Nat}
    (h0 : b off = v % 256) (h1 : b (off + 1) = v / 256 % 256)
    (h2 : b (off + 2) = v / 65536 % 256)
    (h3 : b (off + 3) = v / 16777216 % 256) :
    readU32 b off = v % 4294967296 := by
  simp only [readU32, h0, h1, h2, h3]
  omega

theorem readU32_congr {b1 b2 : Buf} {off : Nat}
    (h : ∀ k, k < 4 → b1 (off + k) = b2 (off + k)) :
    readU32 b1 off = readU32 b2 off := by
  have h0 := h 0 (by omega); rw [Nat.add_zero] at h0
  have h1 := h 1 (by omega)
  have h2 := h 2 (by omega)
  have h3 := h 3 (by omega)
  simp only [readU32, h0, h1, h2, h3]

theorem getD_concat_piece (pre mid post : List Nat) (r : Nat)
    (h : r < mid.length) :
    (pre ++ (mid ++ post)).getD (pre.length + r) 0 = mid.getD r 0 := by
  rw [List.getD_append_right _ _ _ _ (by omega),
    show pre.length + r - pre.length = r by omega,
    List.getD_append _ _ _ _ h]

theorem readU32_writeBytes_piece (b : Buf) (off : Nat) (pre post : List Nat)
    (v p : Nat) (hp : pre.length = p) :
    readU32 (writeBytes b off (pre ++ (u32le v ++ post))) (off + p) =
      v % 4294967296 := by
  subst hp
  have hlen : ∀ r, r < 4 →
      pre.length + r < (pre ++ (u32le v ++ post)).length := by
    intro r hr
    simp [u32le]
    omega
  have hread : ∀ r, r < 4 →
      writeBytes b off (pre ++ (u32le v ++ post)) (off + (pre.length + r)) =
        (u32le v).getD r 0 := by
    intro r hr
    rw [writeBytes_apply_get b off _ _ (hlen r hr),
      getD_concat_piece _ _ _ _ (by simp [u32le]; omega)]
  apply readU32_eq_of
  · have := hread 0 (by omega)
    rw [Nat.add_zero] at this
    rw [this]; rfl
  · have := hread 1 (by omega)
    rw [show off + (pre.length + 1) = off + pre.length + 1 by omega] at this
    rw [this]; rfl
  · have := hread 2 (by omega)
    rw [show off + (pre.length + 2) = off + pre.length + 2 by omega] at this
    rw [this]; rfl
  · have := hread 3 (by omega)
    rw [show off + (pre.length + 3) = off + pre.length + 3 by omega] at this
    rw [this]; rfl

theorem elementBytes_length (e : FfffElement) : (elementBytes e).length = 20 := by
  simp [elementBytes, u32le]

theorem pack_elements_apply_lt :
    ∀ (l : List FfffElement) (b : Buf) (off i : Nat), i < off →
      pack_elements b off l i = b i := by
  intro l
  induction l with
  | nil => intro b off i _; rfl
  | cons e rest ih =>
    intro b off i h
    simp only [pack_elements, FfffElement.pack]
    rw [ih _ _ _ (by omega), writeBytes_apply_lt _ _ _ _ h]

theorem pack_elements_apply_ge :
    ∀ (l : List FfffElement) (b : Buf) (off i : Nat),
      off + FFFF_ELT_LENGTH * l.length ≤ i → pack_elements b off l i = b i := by
  intro l
  induction l with
  | nil => intro b off i _; rfl
  | cons e rest ih =>
    intro b off i h
    simp only [List.length_cons, FFFF_ELT_LENGTH] at h
    simp only [pack_elements, FfffElement.pack, FFFF_ELT_LENGTH]
    rw [ih _ _ _ (by simp only [FFFF_ELT_LENGTH]; omega),
      writeBytes_apply_ge _ _ _ _ (by rw [elementBytes_length]; omega)]

/-! ## Frame lemmas: which fields the validator passes leave untouched -/

theorem vet_state_frame (f : Ffff) :
    (Ffff.validate_element_table f).1.sentinel = f.sentinel ∧
    (Ffff.validate_element_table f).1.timestamp = f.timestamp ∧
    (Ffff.validate_element_table f).1.flash_image_name = f.flash_image_name ∧
    (Ffff.validate_element_table f).1.flash_capacity = f.flash_capacity ∧
    (Ffff.validate_element_table f).1.erase_block_size = f.erase_block_size ∧
    (Ffff.validate_element_table f).1.header_size = f.header_size ∧
    (Ffff.validate_element_table f).1.flash_image_length = f.flash_image_length ∧
    (Ffff.validate_element_table f).1.header_generation_number =
      f.header_generation_number ∧
    (Ffff.validate_element_table f).1.elements = f.elements ∧
    (Ffff.validate_element_table f).1.tail_sentinel = f.tail_sentinel ∧
    (Ffff.validate_element_table f).1.ffff_buf = f.ffff_buf ∧
    (Ffff.validate_element_table f).1.header_offset = f.header_offset ∧
    (Ffff.validate_element_table f).1.header_validity = f.header_validity :=
  ⟨rfl, rfl, rfl, rfl, rfl, rfl, rfl, rfl, rfl, rfl, rfl, rfl, rfl⟩

theorem vfh_state_frame (f : Ffff) :
    (Ffff.validate_ffff_header f).1.sentinel = f.sentinel ∧
    (Ffff.validate_ffff_header f).1.timestamp = f.timestamp ∧
    (Ffff.validate_ffff_header f).1.flash_image_name = f.flash_image_name ∧
    (Ffff.validate_ffff_header f).1.flash_capacity = f.flash_capacity ∧
    (Ffff.validate_ffff_header f).1.erase_block_size = f.erase_block_size ∧
    (Ffff.validate_ffff_header f).1.header_size = f.header_size ∧
    (Ffff.validate_ffff_header f).1.flash_image_length = f.flash_image_length ∧
    (Ffff.validate_ffff_header f).1.header_generation_number =
      f.header_generation_number ∧
    (Ffff.validate_ffff_header f).1.elements = f.elements ∧
    (Ffff.validate_ffff_header f).1.tail_sentinel = f.tail_sentinel ∧
    (Ffff.validate_ffff_header f).1.ffff_buf = f.ffff_buf ∧
    (Ffff.validate_ffff_header f).1.header_offset = f.header_offset := by
  simp only [Ffff.validate_ffff_header]
  repeat' split
  all_goals exact ⟨rfl, rfl, rfl, rfl, rfl, rfl, rfl, rfl, rfl, rfl, rfl, rfl⟩

theorem packStr_length (s : List Nat) (w : Nat) : (packStr s w).length = w := by
  simp [packStr]
  omega

theorem readBytes_writeBytes' (b : Buf) (off : Nat) {data : List Nat} {n : Nat}
    (h : data.length = n) : readBytes (writeBytes b off data) off n = data :=
  h ▸ readBytes_writeBytes b off data

theorem readBytes_writeBytes_left' (b : Buf) (off : Nat) {d1 : List Nat}
    (d2 : List Nat) {n : Nat} (h : d1.length = n) :
    readBytes (writeBytes b off (d1 ++ d2)) off n = d1 :=
  h ▸ readBytes_writeBytes_left b off d1 d2

theorem readBytes_writeBytes_right' (b : Buf) (off : Nat) {d1 d2 : List Nat}
    {p n : Nat} (h1 : d1.length = p) (h2 : d2.length = n) :
    readBytes (writeBytes b off (d1 ++ d2)) (off + p) n = d2 :=
  h1 ▸ h2 ▸ readBytes_writeBytes_right b off d1 d2

/-- Reading the timestamp region of a packed buffer yields the packed fresh
timestamp: the buffer write every later `pack` write leaves alone. -/
theorem pack_read_timestamp (f : Ffff) (ts : List Nat) :
    readBytes (Ffff.pack f ts).ffff_buf (f.header_offset + 16) 16 =
      packStr ts 16 := by
  simp only [Ffff.pack, FFFF_HDR_OFF_ELEMENT_TBL, FFFF_HDR_OFF_TAIL_SENTINEL,
    FFFF_HDR_OFF_FLASH_CAPACITY, FFFF_HDR_OFF_FLASH_IMAGE_NAME, FFFF_HDR_LENGTH]
  by_cases hn : f.flash_image_name ≠ []
  · rw [if_pos hn]
    rw [readBytes_congr 16 _ (fun k hk =>
      pack_elements_apply_lt _ _ _ _ (by omega))]
    rw [readBytes_congr 16 _ (fun k hk =>
      writeBytes_apply_lt _ _ _ _ (by omega))]
    rw [readBytes_congr 16 _ (fun k hk =>
      writeBytes_apply_lt _ _ _ _ (by omega))]
    rw [readBytes_congr 16 _ (fun k hk =>
      writeBytes_apply_lt _ _ _ _ (by omega))]
    exact readBytes_writeBytes_right' _ _ (packStr_length _ _) (packStr_length _ _)
  · rw [if_neg hn]
    rw [readBytes_congr 16 _ (fun k hk =>
      pack_elements_apply_lt _ _ _ _ (by omega))]
    rw [readBytes_congr 16 _ (fun k hk =>
      writeBytes_apply_lt _ _ _ _ (by omega))]
    rw [readBytes_congr 16 _ (fun k hk =>
      writeBytes_apply_lt _ _ _ _ (by omega))]
    exact readBytes_writeBytes_right' _ _ (packStr_length _ _) (packStr_length _ _)

theorem readU32_writeBytes_head (b : Buf) (off : Nat) (post : List Nat) (v : Nat) :
    readU32 (writeBytes b off (u32le v ++ post)) off = v % 4294967296 := by
  have := readU32_writeBytes_piece b off [] post v 0 rfl
  simpa using this

/-- Reading the leading-sentinel region of a packed buffer yields the header's
sentinel field back, when that field has its fixed 16-byte width. -/
theorem pack_read_sentinel (f : Ffff) (ts : List Nat)
    (h : f.sentinel.length = 16) :
    readBytes (Ffff.pack f ts).ffff_buf f.header_offset 16 = f.sentinel := by
  simp only [Ffff.pack, FFFF_HDR_OFF_ELEMENT_TBL, FFFF_HDR_OFF_TAIL_SENTINEL,
    FFFF_HDR_OFF_FLASH_CAPACITY, FFFF_HDR_OFF_FLASH_IMAGE_NAME, FFFF_HDR_LENGTH]
  by_cases hn : f.flash_image_name ≠ []
  · rw [if_pos hn]
    rw [readBytes_congr 16 _ (fun k hk =>
      pack_elements_apply_lt _ _ _ _ (by omega))]
    rw [readBytes_congr 16 _ (fun k hk =>
      writeBytes_apply_lt _ _ _ _ (by omega))]
    rw [readBytes_congr 16 _ (fun k hk =>
      writeBytes_apply_lt _ _ _ _ (by omega))]
    rw [readBytes_congr 16 _ (fun k hk =>
      writeBytes_apply_lt _ _ _ _ (by omega))]
    rw [readBytes_writeBytes_left' _ _ _ (packStr_length _ _)]
    exact packStr_of_length h
  · rw [if_neg hn]
    rw [readBytes_congr 16 _ (fun k hk =>
      pack_elements_apply_lt _ _ _ _ (by omega))]
    rw [readBytes_congr 16 _ (fun k hk =>
      writeBytes_apply_lt _ _ _ _ (by omega))]
    rw [readBytes_congr 16 _ (fun k hk =>
      writeBytes_apply_lt _ _ _ _ (by omega))]
    rw [readBytes_writeBytes_left' _ _ _ (packStr_length _ _)]
    exact packStr_of_length h

/-- Reading the name region of a packed buffer yields the header's
flash image name back, when that field has its full 48-byte width. -/
theorem pack_read_name (f : Ffff) (ts : List Nat)
    (h : f.flash_image_name.length = 48) :
    readBytes (Ffff.pack f ts).ffff_buf (f.header_offset + 32) 48 =
      f.flash_image_name := by
  have hn : f.flash_image_name ≠ [] := by
    intro hc
    rw [hc] at h
    simp at h
  simp only [Ffff.pack, FFFF_HDR_OFF_ELEMENT_TBL, FFFF_HDR_OFF_TAIL_SENTINEL,
    FFFF_HDR_OFF_FLASH_CAPACITY, FFFF_HDR_OFF_FLASH_IMAGE_NAME, FFFF_HDR_LENGTH]
  rw [if_pos hn]
  rw [readBytes_congr 48 _ (fun k hk =>
    pack_elements_apply_lt _ _ _ _ (by omega))]
  rw [readBytes_congr 48 _ (fun k hk =>
    writeBytes_apply_lt _ _ _ _ (by omega))]
  rw [readBytes_congr 48 _ (fun k hk =>
    writeBytes_apply_lt _ _ _ _ (by omega))]
  rw [readBytes_writeBytes' _ _ (packStr_length _ _)]
  exact packStr_of_length h

/-- Reading the flash-capacity u32 of a packed buffer. -/
theorem pack_read_capacity (f : Ffff) (ts : List Nat) :
    readU32 (Ffff.pack f ts).ffff_buf (f.header_offset + 80) =
      f.flash_capacity % 4294967296 := by
  simp only [Ffff.pack, FFFF_HDR_OFF_ELEMENT_TBL, FFFF_HDR_OFF_TAIL_SENTINEL,
    FFFF_HDR_OFF_FLASH_CAPACITY, FFFF_HDR_OFF_FLASH_IMAGE_NAME, FFFF_HDR_LENGTH]
  rw [readU32_congr (fun k hk => pack_elements_apply_lt _ _ _ _ (by omega))]
  rw [readU32_congr (fun k hk => writeBytes_apply_lt _ _ _ _ (by omega))]
  simp only [List.append_assoc]
  exact readU32_writeBytes_head _ _ _ _

/-- Reading the erase-block-size u32 of a packed buffer. -/
theorem pack_read_ebs (f : Ffff) (ts : List Nat) :
    readU32 (Ffff.pack f ts).ffff_buf (f.header_offset + 84) =
      f.erase_block_size % 4294967296 := by
  simp only [Ffff.pack, FFFF_HDR_OFF_ELEMENT_TBL, FFFF_HDR_OFF_TAIL_SENTINEL,
    FFFF_HDR_OFF_FLASH_CAPACITY, FFFF_HDR_OFF_FLASH_IMAGE_NAME, FFFF_HDR_LENGTH]
  rw [readU32_congr (fun k hk => pack_elements_apply_lt _ _ _ _ (by omega))]
  rw [readU32_congr (fun k hk => writeBytes_apply_lt _ _ _ _ (by omega))]
  simp only [List.append_assoc]
  rw [show f.header_offset + 84 = f.header_offset + 80 + 4 from by omega]
  exact readU32_writeBytes_piece _ (f.header_offset + 80)
    (u32le f.flash_capacity)
    (u32le 4096 ++ (u32le f.flash_image_length ++
      u32le f.header_generation_number)) f.erase_block_size 4 rfl

/-- Reading the header-size u32 of a packed buffer: `pack` writes the
constant `FFFF_HDR_LENGTH` there, not the instance's field. -/
theorem pack_read_hsize (f : Ffff) (ts : List Nat) :
    readU32 (Ffff.pack f ts).ffff_buf (f.header_offset + 88) = 4096 := by
  simp only [Ffff.pack, FFFF_HDR_OFF_ELEMENT_TBL, FFFF_HDR_OFF_TAIL_SENTINEL,
    FFFF_HDR_OFF_FLASH_CAPACITY, FFFF_HDR_OFF_FLASH_IMAGE_NAME, FFFF_HDR_LENGTH]
  rw [readU32_congr (fun k hk => pack_elements_apply_lt _ _ _ _ (by omega))]
  rw [readU32_congr (fun k hk => writeBytes_apply_lt _ _ _ _ (by omega))]
  simp only [List.append_assoc]
  rw [← List.append_assoc (u32le f.flash_capacity) (u32le f.erase_block_size)]
  rw [show f.header_offset + 88 = f.header_offset + 80 + 8 from by omega]
  exact readU32_writeBytes_piece _ (f.header_offset + 80)
    (u32le f.flash_capacity ++ u32le f.erase_block_size)
    (u32le f.flash_image_length ++ u32le f.header_generation_number)
    4096 8 (by simp [u32le])

/-- Reading the flash-image-length u32 of a packed buffer. -/
theorem pack_read_ilen (f : Ffff) (ts : List Nat) :
    readU32 (Ffff.pack f ts).ffff_buf (f.header_offset + 92) =
      f.flash_image_length % 4294967296 := by
  simp only [Ffff.pack, FFFF_HDR_OFF_ELEMENT_TBL, FFFF_HDR_OFF_TAIL_SENTINEL,
    FFFF_HDR_OFF_FLASH_CAPACITY, FFFF_HDR_OFF_FLASH_IMAGE_NAME, FFFF_HDR_LENGTH]
  rw [readU32_congr (fun k hk => pack_elements_apply_lt _ _ _ _ (by omega))]
  rw [readU32_congr (fun k hk => writeBytes_apply_lt _ _ _ _ (by omega))]
  simp only [List.append_assoc]
  rw [← List.append_assoc (u32le f.flash_capacity) (u32le f.erase_block_size)]
  rw [← List.append_assoc (u32le f.flash_capacity ++ u32le f.erase_block_size)
    (u32le 4096)]
  rw [show f.header_offset + 92 = f.header_offset + 80 + 12 from by omega]
  exact readU32_writeBytes_piece _ (f.header_offset + 80)
    (u32le f.flash_capacity ++ u32le f.erase_block_size ++ u32le 4096)
    (u32le f.header_generation_number) f.flash_image_length 12 (by simp [u32le])

/-- Reading the header-generation u32 of a packed buffer. -/
theorem pack_read_gen (f : Ffff) (ts : List Nat) :
    readU32 (Ffff.pack f ts).ffff_buf (f.header_offset + 96) =
      f.header_generation_number % 4294967296 := by
  simp only [Ffff.pack, FFFF_HDR_OFF_ELEMENT_TBL, FFFF_HDR_OFF_TAIL_SENTINEL,
    FFFF_HDR_OFF_FLASH_CAPACITY, FFFF_HDR_OFF_FLASH_IMAGE_NAME, FFFF_HDR_LENGTH]
  rw [readU32_congr (fun k hk => pack_elements_apply_lt _ _ _ _ (by omega))]
  rw [readU32_congr (fun k hk => writeBytes_apply_lt _ _ _ _ (by omega))]
  simp only [List.append_assoc]
  rw [← List.append_nil (u32le f.header_generation_number)]
  rw [← List.append_assoc (u32le f.flash_capacity) (u32le f.erase_block_size)]
  rw [← List.append_assoc (u32le f.flash_capacity ++ u32le f.erase_block_size)
    (u32le 4096)]
  rw [← List.append_assoc
    (u32le f.flash_capacity ++ u32le f.erase_block_size ++ u32le 4096)
    (u32le f.flash_image_length)]
  rw [show f.header_offset + 96 = f.header_offset + 80 + 16 from by omega]
  exact readU32_writeBytes_piece _ (f.header_offset + 80)
    (u32le f.flash_capacity ++ u32le f.erase_block_size ++ u32le 4096 ++
      u32le f.flash_image_length)
    [] f.header_generation_number 16 (by simp [u32le])

/-- Reading the trailing-sentinel region of a packed buffer yields the
header's tail sentinel field back. -/
theorem pack_read_tail (f : Ffff) (ts : List Nat)
    (h : f.tail_sentinel.length = 16)
    (hn : f.elements.length ≤ FFFF_MAX_ELEMENTS) :
    readBytes (Ffff.pack f ts).ffff_buf (f.header_offset + 4080) 16 =
      f.tail_sentinel := by
  simp only [FFFF_MAX_ELEMENTS] at hn
  simp only [Ffff.pack, FFFF_HDR_OFF_ELEMENT_TBL, FFFF_HDR_OFF_TAIL_SENTINEL,
    FFFF_HDR_OFF_FLASH_CAPACITY, FFFF_HDR_OFF_FLASH_IMAGE_NAME, FFFF_HDR_LENGTH]
  rw [readBytes_congr 16 _ (fun k hk =>
    pack_elements_apply_ge _ _ _ _ (by simp only [FFFF_ELT_LENGTH]; omega))]
  rw [readBytes_writeBytes' _ _ (packStr_length _ _)]
  exact packStr_of_length h

/-! ## Claim C7: erasure classification -/

/-- C7.  For every header state whose fixed-length header byte region is a
constant 0x00 fill — and likewise for a constant 0xFF fill — the validator
classifies the header ERASED and stops: the returned verdict is
`FFFF_HDR_ERASED` and the resulting state is the input state with only
`header_validity` updated, so no later check ran. -/
theorem C7_erased_short_circuit (f : Ffff)
    (h : is_constant_fill (readBytes f.ffff_buf f.header_offset FFFF_HDR_LENGTH) 0
          = true ∨
        is_constant_fill (readBytes f.ffff_buf f.header_offset FFFF_HDR_LENGTH) 255
          = true) :
    (Ffff.validate_ffff_header f).2 = FFFF_HDR_ERASED ∧
      (Ffff.validate_ffff_header f).1 =
        { f with header_validity := FFFF_HDR_ERASED } := by
  have hcond : (is_constant_fill
      (readBytes f.ffff_buf f.header_offset FFFF_HDR_LENGTH) 0 ||
    is_constant_fill
      (readBytes f.ffff_buf f.header_offset FFFF_HDR_LENGTH) 255) = true := by
    rcases h with h | h <;> simp [h]
  simp only [Ffff.validate_ffff_header]
  rw [if_pos hcond]
  exact ⟨rfl, rfl⟩

theorem readBytes_zeroBuf (off n : Nat) :
    readBytes zeroBuf off n = List.replicate n 0 := by
  induction n generalizing off with
  | zero => rfl
  | succ m ih => simp only [readBytes, ih, List.replicate, zeroBuf]

theorem is_constant_fill_replicate (n v : Nat) :
    is_constant_fill (List.replicate n v) v = true := by
  simp [is_constant_fill, List.all_eq_true]

/-- C7 witness: over the all-zero buffer the validator returns ERASED. -/
theorem C7_erased_short_circuit_witness :
    (Ffff.validate_ffff_header f7er).2 = FFFF_HDR_ERASED ∧
      (Ffff.validate_ffff_header f7er).1 =
        { f7er with header_validity := FFFF_HDR_ERASED } :=
  C7_erased_short_circuit f7er (Or.inl (by
    show is_constant_fill
      (readBytes f7er.ffff_buf f7er.header_offset FFFF_HDR_LENGTH) 0 = true
    have hb : readBytes f7er.ffff_buf f7er.header_offset FFFF_HDR_LENGTH =
        List.replicate FFFF_HDR_LENGTH 0 := readBytes_zeroBuf _ _
    rw [hb]
    exact is_constant_fill_replicate _ _))

/-! ## Claim C8: add-element capacity -/

/-- C8.  Adding to a table already at `FFFF_MAX_ELEMENTS` returns failure and
leaves the whole header state — element sequence and flash buffer included —
unchanged; adding below the maximum with a successfully constructed element
returns success and grows the element count by exactly one. -/
theorem C8_add_element_capacity (f : Ffff)
    (et eid egen eloc elen : Nat) (init_ok : Bool) (blob : List Nat) :
    (f.elements.length = FFFF_MAX_ELEMENTS →
      Ffff.add_element f et eid egen eloc elen init_ok blob = (f, false)) ∧
    (f.elements.length < FFFF_MAX_ELEMENTS → init_ok = true →
      (Ffff.add_element f et eid egen eloc elen init_ok blob).2 = true ∧
      (Ffff.add_element f et eid egen eloc elen init_ok blob).1.elements.length =
        f.elements.length + 1) := by
  constructor
  · intro hfull
    simp only [Ffff.add_element]
    rw [if_neg (by omega)]
  · intro hlt hok
    subst hok
    simp only [Ffff.add_element]
    rw [if_pos hlt]
    simp

/-- C8 witness: a full 19-entry table rejects the new element untouched, and
a one-entry table accepts it, growing to two entries. -/
theorem C8_add_element_capacity_witness :
    (Ffff.add_element f8full 2 3 4 5000 100 true [] = (f8full, false)) ∧
    ((Ffff.add_element f8one 2 3 4 5000 100 true []).2 = true ∧
      (Ffff.add_element f8one 2 3 4 5000 100 true []).1.elements.length =
        f8one.elements.length + 1) :=
  ⟨(C8_add_element_capacity f8full 2 3 4 5000 100 true []).1 (by decide),
   (C8_add_element_capacity f8one 2 3 4 5000 100 true []).2 (by decide) rfl⟩

/-! ## Claim C9: pack touches only the buffer -/

/-- C9.  Encoding writes only into the flash buffer: every field of the
header instance — the timestamp field included — is unchanged by `pack`,
while the freshly supplied timestamp is written (zero-padded to 16 bytes)
into the buffer's timestamp region only. -/
theorem C9_pack_mutates_only_buffer (f : Ffff) (ts : List Nat) :
    (Ffff.pack f ts).sentinel = f.sentinel ∧
    (Ffff.pack f ts).timestamp = f.timestamp ∧
    (Ffff.pack f ts).flash_image_name = f.flash_image_name ∧
    (Ffff.pack f ts).flash_capacity = f.flash_capacity ∧
    (Ffff.pack f ts).erase_block_size = f.erase_block_size ∧
    (Ffff.pack f ts).header_size = f.header_size ∧
    (Ffff.pack f ts).flash_image_length = f.flash_image_length ∧
    (Ffff.pack f ts).header_generation_number = f.header_generation_number ∧
    (Ffff.pack f ts).elements = f.elements ∧
    (Ffff.pack f ts).padding = f.padding ∧
    (Ffff.pack f ts).tail_sentinel = f.tail_sentinel ∧
    (Ffff.pack f ts).header_offset = f.header_offset ∧
    (Ffff.pack f ts).collisions = f.collisions ∧
    (Ffff.pack f ts).duplicates = f.duplicates ∧
    (Ffff.pack f ts).header_validity = f.header_validity ∧
    readBytes (Ffff.pack f ts).ffff_buf (f.header_offset + 16) 16 =
      packStr ts 16 :=
  ⟨rfl, rfl, rfl, rfl, rfl, rfl, rfl, rfl, rfl, rfl, rfl, rfl, rfl, rfl, rfl,
    pack_read_timestamp f ts⟩

theorem readBytes_single_nz (a v : Nat) :
    ∀ (n off : Nat), off + n ≤ a ∨ a < off →
      readBytes (fun i => if i = a then v else 0) off n = List.replicate n 0 := by
  intro n
  induction n with
  | zero => intro off _; rfl
  | succ m ih =>
    intro off h
    have hoff : off ≠ a := by omega
    simp only [readBytes, if_neg hoff, ih (off + 1) (by omega),
      List.replicate]

/-- Evaluation rule for `validate_ffff_header` on a header that passes every
check: hands back the VALID verdict. -/
theorem validate_hdr_eval (f : Ffff)
    (h1 : is_constant_fill
      (readBytes f.ffff_buf f.header_offset FFFF_HDR_LENGTH) 0 = false)
    (h2 : is_constant_fill
      (readBytes f.ffff_buf f.header_offset FFFF_HDR_LENGTH) 255 = false)
    (h3 : f.sentinel = FFFF_SENTINEL) (h4 : f.tail_sentinel = FFFF_SENTINEL)
    (h5 : is_power_of_2 f.erase_block_size = true)
    (h6 : f.flash_image_length % f.erase_block_size = 0)
    (h7 : is_constant_fill (readBytes f.ffff_buf
      (f.header_offset + FFFF_HDR_OFF_ELEMENT_TBL +
        f.elements.length * FFFF_ELT_LENGTH)
      ((f.header_offset + FFFF_HDR_OFF_TAIL_SENTINEL -
        (f.header_offset + FFFF_HDR_OFF_ELEMENT_TBL +
          f.elements.length * FFFF_ELT_LENGTH)) -
        (f.header_offset + FFFF_HDR_OFF_ELEMENT_TBL +
          f.elements.length * FFFF_ELT_LENGTH))) 0 = true)
    (h8 : (Ffff.validate_element_table
      { f with header_validity := FFFF_HDR_VALID }).2 = true) :
    (Ffff.validate_ffff_header f).2 = FFFF_HDR_VALID := by
  simp only [Ffff.validate_ffff_header]
  rw [if_neg (by simp [h1, h2])]
  rw [if_neg (by simp [h3, h4])]
  rw [if_neg (by simp [h5])]
  rw [if_neg (by simp [h6])]
  rw [if_neg (by simp [h7])]
  rw [if_neg (by simp [h8])]
  rfl

theorem readBytes_mem (b : Buf) :
    ∀ (n off k : Nat), k < n → b (off + k) ∈ readBytes b off n := by
  intro n
  induction n with
  | zero => intro off k hk; omega
  | succ m ih =>
    intro off k hk
    cases k with
    | zero => simp [readBytes]
    | succ j =>
      have := ih (off + 1) j (by omega)
      rw [show off + 1 + j = off + (j + 1) by omega] at this
      simp only [readBytes]
      exact List.mem_cons_of_mem _ this

theorem is_constant_fill_false (b : Buf) (off n k fill : Nat)
    (hk : k < n) (hne : b (off + k) ≠ fill) :
    is_constant_fill (readBytes b off n) fill = false := by
  unfold is_constant_fill
  cases hall : (readBytes b off n).all (fun byte => byte == fill) with
  | false => rfl
  | true =>
    exfalso
    rw [List.all_eq_true] at hall
    exact hne (by simpa using hall _ (readBytes_mem b n off k hk))

/-! ## Claim C1: duplicates never reach the aggregate verdict (code bug) -/

/-- C1 evaluated at the failing input `f1dup`: the scan does detect the two
duplicate entries (both duplicate lists are populated and the misspelled
`duplicatess_found` attribute is raised), yet `duplicates_found` stays false,
the element-table check passes, and the overall header verdict is VALID —
where the claim demands failure and INVALID.  The cause is `ffff.py` line
267 assigning `self.duplicatess_found` instead of `self.duplicates_found`. -/
theorem C1_duplicates_lost_in_aggregate :
    (Ffff.validate_element_table f1dup).1.duplicates = [[1], [0]] ∧
    (Ffff.validate_element_table f1dup).1.duplicatess_found = true ∧
    (Ffff.validate_element_table f1dup).1.duplicates_found = false ∧
    (Ffff.validate_element_table f1dup).2 = true ∧
    (Ffff.validate_ffff_header f1dup).2 = FFFF_HDR_VALID := by
  refine ⟨by decide, by decide, by decide, by decide, ?_⟩
  apply validate_hdr_eval
  · decide
  · decide
  · decide
  · decide
  · decide
  · decide
  · have h : readBytes f1dup.ffff_buf 140 3800 = List.replicate 3800 0 :=
      readBytes_single_nz 0 1 3800 140 (by omega)
    exact (by rw [h]; exact is_constant_fill_replicate _ _ :
      is_constant_fill (readBytes f1dup.ffff_buf 140 3800) 0 = true)
  · decide

/-! ## Claim C2: header block size is not a power-of-2 multiple (code bug) -/

/-- C2 evaluated at the failing input `erase_block_size = 4096`: the source's
loop steps through sizes one by one and returns `FFFF_HDR_LENGTH + 1 = 4097`,
which is not even a multiple of the erase block size, while the smallest
power-of-2 multiple of 4096 exceeding the minimum header length (the value
the spec and the source's own comment describe) is 8192. -/
theorem C2_header_block_size_not_pow2 :
    header_block_size 4096 = some 4097 ∧
    spec_header_block_size 4096 = 8192 ∧
    4097 % 4096 ≠ 0 := by
  refine ⟨by decide, by decide, by decide⟩

/-! ## Claim C3: the padding check misses the bytes before the tail (code bug) -/

/-- C3 evaluated at the failing input `f3pad`: its buffer byte at offset 3990
is nonzero and lies strictly between the end of the (empty) element table at
offset 100 and the trailing-sentinel field at offset 4080, yet the validator
returns VALID — where the claim demands INVALID.  The cause is `ffff.py`
lines 318-319 computing `span_end = header_offset + FFFF_HDR_OFF_TAIL_SENTINEL
- span_start`, so the checked slice stops short of the trailing-sentinel
field. -/
theorem C3_padding_gap_unchecked :
    f3pad.ffff_buf 3990 = 7 ∧
    FFFF_HDR_OFF_ELEMENT_TBL + f3pad.elements.length * FFFF_ELT_LENGTH ≤ 3990 ∧
    3990 < FFFF_HDR_OFF_TAIL_SENTINEL ∧
    (Ffff.validate_ffff_header f3pad).2 = FFFF_HDR_VALID := by
  refine ⟨by decide, by decide, by decide, ?_⟩
  apply validate_hdr_eval
  · exact is_constant_fill_false _ 0 4096 3990 0 (by omega) (by decide)
  · decide
  · decide
  · decide
  · decide
  · decide
  · have h : readBytes f3pad.ffff_buf 100 3880 = List.replicate 3880 0 :=
      readBytes_single_nz 3990 7 3880 100 (by omega)
    exact (by rw [h]; exact is_constant_fill_replicate _ _ :
      is_constant_fill (readBytes f3pad.ffff_buf 100 3880) 0 = true)
  · decide

/-! ## Element-table codec lemmas -/

theorem elt_read_type (e : FfffElement) (b : Buf) (off : Nat)
    (h : e.element_type < 4294967296) :
    readU32 (writeBytes b off (elementBytes e)) off = e.element_type := by
  simp only [elementBytes, List.append_assoc]
  have := readU32_writeBytes_head b off
    (u32le e.element_id ++ (u32le e.element_generation ++
      (u32le e.element_location ++ u32le e.element_length))) e.element_type
  rwa [Nat.mod_eq_of_lt h] at this

theorem elt_read_id (e : FfffElement) (b : Buf) (off : Nat)
    (h : e.element_id < 4294967296) :
    readU32 (writeBytes b off (elementBytes e)) (off + 4) = e.element_id := by
  simp only [elementBytes, List.append_assoc]
  have := readU32_writeBytes_piece b off (u32le e.element_type)
    (u32le e.element_generation ++ (u32le e.element_location ++
      u32le e.element_length)) e.element_id 4 rfl
  rwa [Nat.mod_eq_of_lt h] at this

theorem elt_read_gen (e : FfffElement) (b : Buf) (off : Nat)
    (h : e.element_generation < 4294967296) :
    readU32 (writeBytes b off (elementBytes e)) (off + 8) =
      e.element_generation := by
  simp only [elementBytes, List.append_assoc]
  rw [← List.append_assoc (u32le e.element_type) (u32le e.element_id)]
  have := readU32_writeBytes_piece b off
    (u32le e.element_type ++ u32le e.element_id)
    (u32le e.element_location ++ u32le e.element_length)
    e.element_generation 8 rfl
  rwa [Nat.mod_eq_of_lt h] at this

theorem elt_read_loc (e : FfffElement) (b : Buf) (off : Nat)
    (h : e.element_location < 4294967296) :
    readU32 (writeBytes b off (elementBytes e)) (off + 12) =
      e.element_location := by
  simp only [elementBytes, List.append_assoc]
  rw [← List.append_assoc (u32le e.element_type) (u32le e.element_id)]
  rw [← List.append_assoc (u32le e.element_type ++ u32le e.element_id)
    (u32le e.element_generation)]
  have := readU32_writeBytes_piece b off
    (u32le e.element_type ++ u32le e.element_id ++ u32le e.element_generation)
    (u32le e.element_length) e.element_location 12 rfl
  rwa [Nat.mod_eq_of_lt h] at this

theorem elt_read_len (e : FfffElement) (b : Buf) (off : Nat)
    (h : e.element_length < 4294967296) :
    readU32 (writeBytes b off (elementBytes e)) (off + 16) =
      e.element_length := by
  simp only [elementBytes, List.append_assoc]
  rw [← List.append_nil (u32le e.element_length)]
  rw [← List.append_assoc (u32le e.element_type) (u32le e.element_id)]
  rw [← List.append_assoc (u32le e.element_type ++ u32le e.element_id)
    (u32le e.element_generation)]
  rw [← List.append_assoc
    (u32le e.element_type ++ u32le e.element_id ++ u32le e.element_generation)
    (u32le e.element_location)]
  have := readU32_writeBytes_piece b off
    (u32le e.element_type ++ u32le e.element_id ++ u32le e.element_generation ++
      u32le e.element_location) [] e.element_length 16 rfl
  rwa [Nat.mod_eq_of_lt h] at this

theorem unpack_one (e : FfffElement) (b : Buf) (off idx : Nat)
    (hwf : elemWF e) :
    FfffElement.unpack (writeBytes b off (elementBytes e)) off idx =
      ({ index := idx, element_type := e.element_type,
         element_id := e.element_id,
         element_generation := e.element_generation,
         element_location := e.element_location,
         element_length := e.element_length },
       e.element_type == FFFF_ELEMENT_END_OF_ELEMENT_TABLE) := by
  obtain ⟨-, ht, hid, hg, hl, hn⟩ := hwf
  simp only [FfffElement.unpack]
  rw [elt_read_type e b off ht, elt_read_id e b off hid, elt_read_gen e b off hg,
    elt_read_loc e b off hl, elt_read_len e b off hn]

theorem unpack_elt_congr {b1 b2 : Buf} (off idx : Nat)
    (h : ∀ k, k < 20 → b1 (off + k) = b2 (off + k)) :
    FfffElement.unpack b1 off idx = FfffElement.unpack b2 off idx := by
  have h0 : readU32 b1 off = readU32 b2 off :=
    readU32_congr (fun k hk => h k (by omega))
  have h4 : readU32 b1 (off + 4) = readU32 b2 (off + 4) :=
    readU32_congr (fun k hk => by
      have := h (4 + k) (by omega)
      rwa [show off + (4 + k) = off + 4 + k from by omega] at this)
  have h8 : readU32 b1 (off + 8) = readU32 b2 (off + 8) :=
    readU32_congr (fun k hk => by
      have := h (8 + k) (by omega)
      rwa [show off + (8 + k) = off + 8 + k from by omega] at this)
  have h12 : readU32 b1 (off + 12) = readU32 b2 (off + 12) :=
    readU32_congr (fun k hk => by
      have := h (12 + k) (by omega)
      rwa [show off + (12 + k) = off + 12 + k from by omega] at this)
  have h16 : readU32 b1 (off + 16) = readU32 b2 (off + 16) :=
    readU32_congr (fun k hk => by
      have := h (16 + k) (by omega)
      rwa [show off + (16 + k) = off + 16 + k from by omega] at this)
  simp only [FfffElement.unpack, h0, h4, h8, h12, h16]

theorem pack_elements_cons (b : Buf) (off : Nat) (e : FfffElement)
    (rest : List FfffElement) :
    pack_elements b off (e :: rest) =
      pack_elements (writeBytes b off (elementBytes e))
        (off + FFFF_ELT_LENGTH) rest := rfl

theorem reindexFrom_length (l : List FfffElement) :
    ∀ i, (reindexFrom i l).length = l.length := by
  induction l with
  | nil => intro i; rfl
  | cons e rest ih => intro i; simp only [reindexFrom, List.length_cons, ih]

theorem reindexFrom_map_key (l : List FfffElement) :
    ∀ i, (reindexFrom i l).map elemKey = l.map elemKey := by
  induction l with
  | nil => intro i; rfl
  | cons e rest ih =>
    intro i
    simp only [reindexFrom, List.map_cons, ih]
    rfl

/-- Round trip of the element table: decoding a freshly packed table whose
termination slot reads zero reproduces the elements with sequential indices. -/
theorem unpack_pack_elements :
    ∀ (l : List FfffElement) (b : Buf) (off idx fuel : Nat),
      l.length ≤ fuel →
      (∀ e ∈ l, elemWF e) →
      readU32 (pack_elements b off l) (off + FFFF_ELT_LENGTH * l.length) = 0 →
      unpack_elements (pack_elements b off l) off idx fuel = reindexFrom idx l := by
  intro l
  induction l with
  | nil =>
    intro b off idx fuel _ _ hterm
    cases fuel with
    | zero => rfl
    | succ m =>
      simp only [pack_elements, List.length_nil, Nat.mul_zero, Nat.add_zero]
        at hterm
      simp only [pack_elements, unpack_elements, FfffElement.unpack, hterm,
        reindexFrom]
      rfl
  | cons e rest ih =>
    intro b off idx fuel hlen helems hterm
    cases fuel with
    | zero => simp at hlen
    | succ m =>
      have he := helems e (List.mem_cons_self _ _)
      rw [pack_elements_cons] at hterm ⊢
      rw [show off + FFFF_ELT_LENGTH * (e :: rest).length =
          off + FFFF_ELT_LENGTH + FFFF_ELT_LENGTH * rest.length from by
        simp only [List.length_cons, FFFF_ELT_LENGTH]; omega] at hterm
      have hcongr : FfffElement.unpack
          (pack_elements (writeBytes b off (elementBytes e))
            (off + FFFF_ELT_LENGTH) rest) off idx =
          FfffElement.unpack (writeBytes b off (elementBytes e)) off idx :=
        unpack_elt_congr off idx (fun k hk =>
          pack_elements_apply_lt _ _ _ _ (by
            simp only [FFFF_ELT_LENGTH]; omega))
      have hfalse : (e.element_type == FFFF_ELEMENT_END_OF_ELEMENT_TABLE) =
          false := beq_eq_false_iff_ne.mpr he.1
      simp only [unpack_elements, hcongr, unpack_one e b off idx he, hfalse,
        Bool.false_eq_true, if_false, reindexFrom]
      rw [ih _ (off + FFFF_ELT_LENGTH) (idx + 1) m (by
        simp only [List.length_cons] at hlen; omega)
        (fun x hx => helems x (List.mem_cons_of_mem _ hx)) hterm]

/-- The element decode loop depends only on the buffer bytes of the table
region it reads. -/
theorem unpack_elements_congr :
    ∀ (fuel : Nat) (b1 b2 : Buf) (off idx : Nat),
      (∀ r, r < FFFF_ELT_LENGTH * fuel → b1 (off + r) = b2 (off + r)) →
      unpack_elements b1 off idx fuel = unpack_elements b2 off idx fuel := by
  intro fuel
  induction fuel with
  | zero => intro b1 b2 off idx _; rfl
  | succ m ih =>
    intro b1 b2 off idx h
    have hcongr : FfffElement.unpack b1 off idx = FfffElement.unpack b2 off idx :=
      unpack_elt_congr off idx (fun k hk =>
        h k (by simp only [FFFF_ELT_LENGTH]; omega))
    simp only [unpack_elements, hcongr]
    split
    · rfl
    · rw [ih b1 b2 (off + FFFF_ELT_LENGTH) (idx + 1) (fun r hr => by
        have := h (FFFF_ELT_LENGTH + r) (by
          simp only [FFFF_ELT_LENGTH] at hr ⊢; omega)
        rwa [show off + (FFFF_ELT_LENGTH + r) = off + FFFF_ELT_LENGTH + r
          from by omega] at this)]

/-! ## What `unpack` stores in each field -/

theorem unpack_sentinel_eq (f : Ffff) :
    (Ffff.unpack f).sentinel = readBytes f.ffff_buf f.header_offset 16 := by
  simp only [Ffff.unpack]
  rw [(vfh_state_frame _).1]

theorem unpack_name_eq (f : Ffff) :
    (Ffff.unpack f).flash_image_name =
      readBytes f.ffff_buf (f.header_offset + FFFF_HDR_OFF_FLASH_IMAGE_NAME) 48 := by
  simp only [Ffff.unpack]
  rw [(vfh_state_frame _).2.2.1]

theorem unpack_capacity_eq (f : Ffff) :
    (Ffff.unpack f).flash_capacity =
      readU32 f.ffff_buf (f.header_offset + FFFF_HDR_OFF_FLASH_CAPACITY) := by
  simp only [Ffff.unpack]
  rw [(vfh_state_frame _).2.2.2.1]

theorem unpack_ebs_eq (f : Ffff) :
    (Ffff.unpack f).erase_block_size =
      readU32 f.ffff_buf (f.header_offset + FFFF_HDR_OFF_FLASH_CAPACITY + 4) := by
  simp only [Ffff.unpack]
  rw [(vfh_state_frame _).2.2.2.2.1]

theorem unpack_hsize_eq (f : Ffff) :
    (Ffff.unpack f).header_size =
      readU32 f.ffff_buf (f.header_offset + FFFF_HDR_OFF_FLASH_CAPACITY + 8) := by
  simp only [Ffff.unpack]
  rw [(vfh_state_frame _).2.2.2.2.2.1]

theorem unpack_ilen_eq (f : Ffff) :
    (Ffff.unpack f).flash_image_length =
      readU32 f.ffff_buf (f.header_offset + FFFF_HDR_OFF_FLASH_CAPACITY + 12) := by
  simp only [Ffff.unpack]
  rw [(vfh_state_frame _).2.2.2.2.2.2.1]

theorem unpack_gen_eq (f : Ffff) :
    (Ffff.unpack f).header_generation_number =
      readU32 f.ffff_buf (f.header_offset + FFFF_HDR_OFF_FLASH_CAPACITY + 16) := by
  simp only [Ffff.unpack]
  rw [(vfh_state_frame _).2.2.2.2.2.2.2.1]

theorem unpack_elements_eq (f : Ffff) :
    (Ffff.unpack f).elements =
      unpack_elements f.ffff_buf FFFF_HDR_OFF_ELEMENT_TBL 0 FFFF_MAX_ELEMENTS := by
  simp only [Ffff.unpack]
  rw [(vfh_state_frame _).2.2.2.2.2.2.2.2.1]

theorem unpack_tail_eq (f : Ffff) :
    (Ffff.unpack f).tail_sentinel =
      readBytes f.ffff_buf (f.header_offset + FFFF_HDR_OFF_TAIL_SENTINEL) 16 := by
  simp only [Ffff.unpack]
  rw [(vfh_state_frame _).2.2.2.2.2.2.2.2.2.1]

theorem readU32_zero_of (b : Buf) (off : Nat) (h0 : b off = 0)
    (h1 : b (off + 1) = 0) (h2 : b (off + 2) = 0) (h3 : b (off + 3) = 0) :
    readU32 b off = 0 := by
  simp [readU32, h0, h1, h2, h3]

/-- Decoding the element table out of a packed buffer reproduces the packed
elements (reindexed), provided the four type bytes right after the packed
table were zero in the underlying buffer. -/
theorem pack_read_table (f : Ffff) (ts : List Nat)
    (hn : f.elements.length ≤ FFFF_MAX_ELEMENTS)
    (helems : ∀ e ∈ f.elements, elemWF e)
    (hterm : ∀ k, k < 4 → f.ffff_buf (f.header_offset + FFFF_HDR_OFF_ELEMENT_TBL +
      FFFF_ELT_LENGTH * f.elements.length + k) = 0) :
    unpack_elements (Ffff.pack f ts).ffff_buf
      (f.header_offset + FFFF_HDR_OFF_ELEMENT_TBL) 0 FFFF_MAX_ELEMENTS =
      reindexFrom 0 f.elements := by
  simp only [FFFF_MAX_ELEMENTS, FFFF_ELT_LENGTH, FFFF_HDR_OFF_ELEMENT_TBL]
    at hn hterm ⊢
  simp only [Ffff.pack, FFFF_HDR_OFF_ELEMENT_TBL, FFFF_HDR_OFF_TAIL_SENTINEL,
    FFFF_HDR_OFF_FLASH_CAPACITY, FFFF_HDR_OFF_FLASH_IMAGE_NAME, FFFF_HDR_LENGTH]
  apply unpack_pack_elements f.elements _ _ 0 19
  · omega
  · exact helems
  · simp only [FFFF_ELT_LENGTH]
    have hbyte : ∀ r, r < 4 →
        pack_elements (writeBytes (writeBytes
            (if f.flash_image_name ≠ [] then
              writeBytes (writeBytes f.ffff_buf f.header_offset
                (packStr f.sentinel 16 ++ packStr ts 16))
                (f.header_offset + 32) (packStr f.flash_image_name 48)
            else
              writeBytes f.ffff_buf f.header_offset
                (packStr f.sentinel 16 ++ packStr ts 16))
            (f.header_offset + 80)
            (u32le f.flash_capacity ++ u32le f.erase_block_size ++
              u32le 4096 ++ u32le f.flash_image_length ++
              u32le f.header_generation_number))
          (f.header_offset + 4080) (packStr f.tail_sentinel 16))
          (f.header_offset + 100) f.elements
          (f.header_offset + 100 + 20 * f.elements.length + r) = 0 := by
      intro r hr
      rw [pack_elements_apply_ge _ _ _ _ (by
        simp only [FFFF_ELT_LENGTH]; omega)]
      rw [writeBytes_apply_lt _ _ _ _ (by omega)]
      rw [writeBytes_apply_ge _ _ _ _ (by
        simp only [List.length_append, u32le, List.length_cons,
          List.length_nil]
        omega)]
      have hbase : ∀ bb : Buf,
          (writeBytes bb f.header_offset
            (packStr f.sentinel 16 ++ packStr ts 16))
            (f.header_offset + 100 + 20 * f.elements.length + r) =
          bb (f.header_offset + 100 + 20 * f.elements.length + r) :=
        fun bb => writeBytes_apply_ge _ _ _ _ (by
          simp only [List.length_append, packStr_length]
          omega)
      by_cases hname : f.flash_image_name ≠ []
      · rw [if_pos hname]
        rw [writeBytes_apply_ge _ _ _ _ (by rw [packStr_length]; omega)]
        rw [hbase]
        exact hterm r hr
      · rw [if_neg hname]
        rw [hbase]
        exact hterm r hr
    have h0 := hbyte 0 (by omega)
    have h1 := hbyte 1 (by omega)
    have h2 := hbyte 2 (by omega)
    have h3 := hbyte 3 (by omega)
    rw [Nat.add_zero] at h0
    exact readU32_zero_of _ _ h0 h1 h2 h3

/-! ## Claim C10: the element table is decoded at an absolute offset -/

/-- C10.  `unpack` reads the fixed header fields and the trailing sentinel
relative to the supplied header offset, but decodes the element table from
the absolute offset `FFFF_HDR_OFF_ELEMENT_TBL`: any two header states whose
buffers agree on that absolute table region — whatever their header offsets —
decode the same element sequence. -/
theorem C10_element_table_absolute (f1 f2 : Ffff)
    (h : ∀ r, r < FFFF_ELT_LENGTH * FFFF_MAX_ELEMENTS →
      f1.ffff_buf (FFFF_HDR_OFF_ELEMENT_TBL + r) =
        f2.ffff_buf (FFFF_HDR_OFF_ELEMENT_TBL + r)) :
    (Ffff.unpack f1).elements = (Ffff.unpack f2).elements ∧
    (Ffff.unpack f1).sentinel = readBytes f1.ffff_buf f1.header_offset 16 ∧
    (Ffff.unpack f1).tail_sentinel =
      readBytes f1.ffff_buf (f1.header_offset + FFFF_HDR_OFF_TAIL_SENTINEL) 16 := by
  refine ⟨?_, unpack_sentinel_eq f1, unpack_tail_eq f1⟩
  rw [unpack_elements_eq f1, unpack_elements_eq f2]
  exact unpack_elements_congr FFFF_MAX_ELEMENTS _ _ _ _ h

/-- C10 witness: `f10a` (offset 0) and `f10b` (offset 4096) differ everywhere
below offset 100 but agree on the absolute table region, and decode the same
element sequence. -/
theorem C10_element_table_absolute_witness :
    (Ffff.unpack f10a).elements = (Ffff.unpack f10b).elements ∧
    (Ffff.unpack f10a).sentinel = readBytes f10a.ffff_buf f10a.header_offset 16 ∧
    (Ffff.unpack f10a).tail_sentinel =
      readBytes f10a.ffff_buf (f10a.header_offset + FFFF_HDR_OFF_TAIL_SENTINEL) 16 :=
  C10_element_table_absolute f10a f10b (fun r hr => by
    show (if FFFF_HDR_OFF_ELEMENT_TBL + r < 100 then 7 else 0) =
      zeroBuf (FFFF_HDR_OFF_ELEMENT_TBL + r)
    rw [if_neg (by simp only [FFFF_HDR_OFF_ELEMENT_TBL]; omega)]
    rfl)

/-! ## Claim C4: encode/decode round trip -/

/-- C4 counterexample: `f4off` carries a valid element table at the second
header copy's offset 4096, but decoding the buffer produced by encoding it —
at that same offset — loses the element: the decode loop reads the table at
the absolute offset 100 while `pack` wrote it at 4196, so the decoded count
differs from the original. -/
theorem C4_roundtrip_fails_at_nonzero_offset :
    (Ffff.validate_element_table f4off).2 = true ∧
    ¬ ((Ffff.decode (Ffff.pack f4off tsZ).ffff_buf
        f4off.header_offset).elements.length = f4off.elements.length) := by
  refine ⟨by decide, by decide⟩

/-- C4 as amended: for a header at offset 0 (the first copy) with fixed-width
string fields, `header_size` holding the fixed constant, 32-bit scalar
fields, at most the maximum number of elements — each live with 32-bit
fields — and a buffer whose four type bytes right after the packed table are
zero, decoding the encoded buffer at the same offset reproduces the element
count, the element identities/locations/lengths, and every scalar header
field except the timestamp (which `pack` refreshes). -/
theorem C4_roundtrip_amended (f : Ffff) (ts : List Nat)
    (hvalid : (Ffff.validate_element_table f).2 = true)
    (hoff : f.header_offset = 0)
    (hsen : f.sentinel.length = 16)
    (hname : f.flash_image_name.length = 48)
    (htail : f.tail_sentinel.length = 16)
    (hhs : f.header_size = FFFF_HDR_LENGTH)
    (hcap : f.flash_capacity < 4294967296)
    (hebs : f.erase_block_size < 4294967296)
    (hlen : f.flash_image_length < 4294967296)
    (hgen : f.header_generation_number < 4294967296)
    (hn : f.elements.length ≤ FFFF_MAX_ELEMENTS)
    (helems : ∀ e ∈ f.elements, elemWF e)
    (hterm : ∀ k, k < 4 →
      f.ffff_buf (f.header_offset + FFFF_HDR_OFF_ELEMENT_TBL +
        FFFF_ELT_LENGTH * f.elements.length + k) = 0) :
    (Ffff.decode (Ffff.pack f ts).ffff_buf f.header_offset).elements.length =
      f.elements.length ∧
    (Ffff.decode (Ffff.pack f ts).ffff_buf f.header_offset).elements.map elemKey =
      f.elements.map elemKey ∧
    (Ffff.decode (Ffff.pack f ts).ffff_buf f.header_offset).sentinel =
      f.sentinel ∧
    (Ffff.decode (Ffff.pack f ts).ffff_buf f.header_offset).flash_image_name =
      f.flash_image_name ∧
    (Ffff.decode (Ffff.pack f ts).ffff_buf f.header_offset).flash_capacity =
      f.flash_capacity ∧
    (Ffff.decode (Ffff.pack f ts).ffff_buf f.header_offset).erase_block_size =
      f.erase_block_size ∧
    (Ffff.decode (Ffff.pack f ts).ffff_buf f.header_offset).header_size =
      f.header_size ∧
    (Ffff.decode (Ffff.pack f ts).ffff_buf f.header_offset).flash_image_length =
      f.flash_image_length ∧
    (Ffff.decode (Ffff.pack f ts).ffff_buf f.header_offset).header_generation_number =
      f.header_generation_number ∧
    (Ffff.decode (Ffff.pack f ts).ffff_buf f.header_offset).tail_sentinel =
      f.tail_sentinel := by
  have hdec : Ffff.decode (Ffff.pack f ts).ffff_buf f.header_offset =
      Ffff.unpack (Ffff.init (Ffff.pack f ts).ffff_buf f.header_offset
        [] 0 0 0 0) := rfl
  have hel : (Ffff.decode (Ffff.pack f ts).ffff_buf f.header_offset).elements =
      reindexFrom 0 f.elements := by
    rw [hdec, unpack_elements_eq]
    have := pack_read_table f ts hn helems hterm
    rwa [hoff, Nat.zero_add] at this
  refine ⟨?_, ?_, ?_, ?_, ?_, ?_, ?_, ?_, ?_, ?_⟩
  · rw [hel, reindexFrom_length]
  · rw [hel, reindexFrom_map_key]
  · rw [hdec, unpack_sentinel_eq]
    exact pack_read_sentinel f ts hsen
  · rw [hdec, unpack_name_eq]
    exact pack_read_name f ts hname
  · rw [hdec, unpack_capacity_eq]
    have := pack_read_capacity f ts
    rw [Nat.mod_eq_of_lt hcap] at this
    exact this
  · rw [hdec, unpack_ebs_eq]
    have := pack_read_ebs f ts
    rw [Nat.mod_eq_of_lt hebs] at this
    rw [show (Ffff.init (Ffff.pack f ts).ffff_buf f.header_offset
        [] 0 0 0 0).header_offset + FFFF_HDR_OFF_FLASH_CAPACITY + 4 =
      f.header_offset + 84 from by
        simp only [Ffff.init, FFFF_HDR_OFF_FLASH_CAPACITY]]
    exact this
  · rw [hdec, unpack_hsize_eq, hhs]
    rw [show (Ffff.init (Ffff.pack f ts).ffff_buf f.header_offset
        [] 0 0 0 0).header_offset + FFFF_HDR_OFF_FLASH_CAPACITY + 8 =
      f.header_offset + 88 from by
        simp only [Ffff.init, FFFF_HDR_OFF_FLASH_CAPACITY]]
    exact pack_read_hsize f ts
  · rw [hdec, unpack_ilen_eq]
    have := pack_read_ilen f ts
    rw [Nat.mod_eq_of_lt hlen] at this
    rw [show (Ffff.init (Ffff.pack f ts).ffff_buf f.header_offset
        [] 0 0 0 0).header_offset + FFFF_HDR_OFF_FLASH_CAPACITY + 12 =
      f.header_offset + 92 from by
        simp only [Ffff.init, FFFF_HDR_OFF_FLASH_CAPACITY]]
    exact this
  · rw [hdec, unpack_gen_eq]
    have := pack_read_gen f ts
    rw [Nat.mod_eq_of_lt hgen] at this
    rw [show (Ffff.init (Ffff.pack f ts).ffff_buf f.header_offset
        [] 0 0 0 0).header_offset + FFFF_HDR_OFF_FLASH_CAPACITY + 16 =
      f.header_offset + 96 from by
        simp only [Ffff.init, FFFF_HDR_OFF_FLASH_CAPACITY]]
    exact this
  · rw [hdec, unpack_tail_eq]
    exact pack_read_tail f ts htail hn

/-- C4 witness: the amended round trip at the concrete header `f4rt`
(offset 0, one element, zero buffer). -/
theorem C4_roundtrip_amended_witness :
    (Ffff.decode (Ffff.pack f4rt tsZ).ffff_buf f4rt.header_offset).elements.length =
      f4rt.elements.length ∧
    (Ffff.decode (Ffff.pack f4rt tsZ).ffff_buf f4rt.header_offset).elements.map elemKey =
      f4rt.elements.map elemKey ∧
    (Ffff.decode (Ffff.pack f4rt tsZ).ffff_buf f4rt.header_offset).sentinel =
      f4rt.sentinel ∧
    (Ffff.decode (Ffff.pack f4rt tsZ).ffff_buf f4rt.header_offset).flash_image_name =
      f4rt.flash_image_name ∧
    (Ffff.decode (Ffff.pack f4rt tsZ).ffff_buf f4rt.header_offset).flash_capacity =
      f4rt.flash_capacity ∧
    (Ffff.decode (Ffff.pack f4rt tsZ).ffff_buf f4rt.header_offset).erase_block_size =
      f4rt.erase_block_size ∧
    (Ffff.decode (Ffff.pack f4rt tsZ).ffff_buf f4rt.header_offset).header_size =
      f4rt.header_size ∧
    (Ffff.decode (Ffff.pack f4rt tsZ).ffff_buf f4rt.header_offset).flash_image_length =
      f4rt.flash_image_length ∧
    (Ffff.decode (Ffff.pack f4rt tsZ).ffff_buf f4rt.header_offset).header_generation_number =
      f4rt.header_generation_number ∧
    (Ffff.decode (Ffff.pack f4rt tsZ).ffff_buf f4rt.header_offset).tail_sentinel =
      f4rt.tail_sentinel :=
  C4_roundtrip_amended f4rt tsZ (by decide) rfl (by decide) (by decide)
    (by decide) rfl (by decide) (by decide) (by decide) (by decide)
    (by decide) (by decide) (fun k hk => rfl)

theorem vfh_elements (f : Ffff) :
    (Ffff.validate_ffff_header f).1.elements = f.elements :=
  (vfh_state_frame f).2.2.2.2.2.2.2.2.1

theorem vfh_ilen (f : Ffff) :
    (Ffff.validate_ffff_header f).1.flash_image_length = f.flash_image_length :=
  (vfh_state_frame f).2.2.2.2.2.2.1

theorem vet_elements (f : Ffff) :
    (Ffff.validate_element_table f).1.elements = f.elements := rfl

theorem vet_ilen (f : Ffff) :
    (Ffff.validate_element_table f).1.flash_image_length =
      f.flash_image_length := rfl

theorem pack_elements_field (f : Ffff) (ts : List Nat) :
    (Ffff.pack f ts).elements = f.elements := rfl

theorem pack_ilen_field (f : Ffff) (ts : List Nat) :
    (Ffff.pack f ts).flash_image_length = f.flash_image_length := rfl

/-! ## Claim C5: layout planning -/

/-- C5.  For a header with three elements of lengths 100, 250 and 50, all
auto-placed (location 0), erase block size 64 and the target image length
unset (0), the planner assigns element 2 location 128 and element 3 location
384, and sets the final flash image length to 448. -/
theorem C5_layout_planner (f : Ffff) (ts : List Nat) (e1 e2 e3 : FfffElement)
    (hE : f.elements = [e1, e2, e3])
    (h1l : e1.element_location = 0) (h1n : e1.element_length = 100)
    (h2l : e2.element_location = 0) (h2n : e2.element_length = 250)
    (h3l : e3.element_location = 0) (h3n : e3.element_length = 50)
    (hebs : f.erase_block_size = 64)
    (hilen : f.flash_image_length = 0) :
    (Ffff.post_process f ts).map (fun g =>
      (g.elements.map FfffElement.element_location, g.flash_image_length)) =
      some ([0, 128, 384], 448) := by
  have hlay : layout_elements f.flash_image_length f.erase_block_size
      [e1, e2, e3] e1.element_location =
      some ([{ e1 with element_location := 0 },
             { e2 with element_location := 128 },
             { e3 with element_location := 384 }], 448) := by
    simp [layout_elements, next_boundary, h1l, h1n, h2l, h2n, h3l, h3n,
      hilen, hebs]
  simp only [Ffff.post_process, hE]
  rw [hlay]
  simp only [Option.map, vfh_elements, vfh_ilen, pack_elements_field,
    pack_ilen_field, vet_elements, vet_ilen, hilen, if_pos, List.map_cons,
    List.map_nil]

/-- C5 witness: the planner evaluated at the concrete header `f5lay`. -/
theorem C5_layout_planner_witness :
    (Ffff.post_process f5lay tsZ).map (fun g =>
      (g.elements.map FfffElement.element_location, g.flash_image_length)) =
      some ([0, 128, 384], 448) :=
  C5_layout_planner f5lay tsZ _ _ _ rfl rfl rfl rfl rfl rfl rfl rfl rfl

/-! ## Claim C6: collision symmetry -/

theorem overlap_comm {a b : FfffElement} (h : overlap_cond a b) :
    overlap_cond b a := by
  unfold overlap_cond at h ⊢
  omega

theorem live_of_lt_liveCount (l : List FfffElement) :
    ∀ k, k < liveCount l →
      (l.getD k dElt).element_type ≠ FFFF_ELEMENT_END_OF_ELEMENT_TABLE ∧
        k < l.length := by
  induction l with
  | nil => intro k hk; simp [liveCount] at hk
  | cons e rest ih =>
    intro k hk
    unfold liveCount at hk
    simp only [List.takeWhile] at hk
    cases hpe : (e.element_type != FFFF_ELEMENT_END_OF_ELEMENT_TABLE) with
    | false => rw [hpe] at hk; simp at hk
    | true =>
      rw [hpe] at hk
      simp only [List.length_cons] at hk
      cases k with
      | zero =>
        refine ⟨?_, by simp⟩
        simpa using bne_iff_ne.mp hpe
      | succ m =>
        have := ih m (by unfold liveCount; omega)
        exact ⟨by simpa using this.1, by simp only [List.length_cons]; omega⟩

theorem element_scan_mem (a : FfffElement) (i : Nat) :
    ∀ (suffix : List FfffElement) (j0 j : Nat),
      j0 ≤ j → j - j0 < suffix.length →
      (∀ k, k ≤ j - j0 → j0 + k ≠ i →
        (suffix.getD k dElt).element_type ≠ FFFF_ELEMENT_END_OF_ELEMENT_TABLE) →
      j ≠ i → overlap_cond a (suffix.getD (j - j0) dElt) →
      (j : Int) ∈ (element_scan a i suffix j0).1 := by
  intro suffix
  induction suffix with
  | nil => intro j0 j _ hj; simp at hj
  | cons b rest ih =>
    intro j0 j hle hj hlive hji hov
    by_cases hij0 : i = j0
    · have hjgt : j0 < j := by omega
      simp only [element_scan, if_pos hij0]
      have hsub : j - j0 = (j - (j0 + 1)) + 1 := by omega
      apply ih (j0 + 1) j (by omega)
        (by simp only [List.length_cons] at hj; omega)
        (fun k hk hki => by
          have := hlive (k + 1) (by omega) (by omega)
          simpa using this)
        hji
      rw [hsub] at hov
      simpa using hov
    · have hblive : b.element_type ≠ FFFF_ELEMENT_END_OF_ELEMENT_TABLE := by
        have := hlive 0 (by omega) (by omega)
        simpa using this
      simp only [element_scan, if_neg hij0, if_neg hblive]
      by_cases hjj0 : j = j0
      · subst hjj0
        rw [Nat.sub_self] at hov
        have hovb : overlap_cond a b := by simpa using hov
        apply List.mem_append_left
        simp [hovb]
      · have hjgt : j0 < j := by omega
        apply List.mem_append_right
        have hsub : j - j0 = (j - (j0 + 1)) + 1 := by omega
        apply ih (j0 + 1) j (by omega)
          (by simp only [List.length_cons] at hj; omega)
          (fun k hk hki => by
            have := hlive (k + 1) (by omega) (by omega)
            simpa using this)
          hji
        rw [hsub] at hov
        simpa using hov

theorem table_scan_row (all : List FfffElement) (mn mx hs : Nat) :
    ∀ (suffix : List FfffElement) (i0 k : Nat),
      k < liveCount suffix →
      (table_scan all mn mx hs suffix i0).1.getD k [] =
        (if (suffix.getD k dElt).element_location < hs then
          [FFFF_HEADER_COLLISION] else []) ++
          (element_scan (suffix.getD k dElt) (i0 + k) all 0).1 := by
  intro suffix
  induction suffix with
  | nil => intro i0 k hk; simp [liveCount] at hk
  | cons a rest ih =>
    intro i0 k hk
    have halive : a.element_type ≠ FFFF_ELEMENT_END_OF_ELEMENT_TABLE := by
      simpa using (live_of_lt_liveCount (a :: rest) 0 (by omega)).1
    simp only [table_scan, if_neg halive]
    cases k with
    | zero =>
      simp only [List.getD_cons_zero, Nat.add_zero]
      by_cases hhit : a.element_location < hs
      · simp [hhit]
      · simp [hhit]
    | succ m =>
      simp only [List.getD_cons_succ]
      rw [show i0 + (m + 1) = (i0 + 1) + m from by omega]
      apply ih (i0 + 1) m
      unfold liveCount at hk ⊢
      simp only [List.takeWhile] at hk
      rw [show (a.element_type != FFFF_ELEMENT_END_OF_ELEMENT_TABLE) = true
        from bne_iff_ne.mpr halive] at hk
      simpa using hk

/-- C6.  For every pair of distinct live elements at indices `i` and `j`
whose byte ranges overlap (in the source's inclusive-endpoint arithmetic),
the consistency scan records `j` in index `i`'s collision list and `i` in
index `j`'s collision list: collision reporting is symmetric. -/
theorem C6_collision_symmetry (f : Ffff) (i j : Nat)
    (hi : i < liveCount f.elements) (hj : j < liveCount f.elements)
    (hij : i ≠ j)
    (hov : overlap_cond (f.elements.getD i dElt) (f.elements.getD j dElt)) :
    (j : Int) ∈ ((Ffff.validate_element_table f).1.collisions.getD i []) ∧
    (i : Int) ∈ ((Ffff.validate_element_table f).1.collisions.getD j []) := by
  have main : ∀ p q, p < liveCount f.elements → q < liveCount f.elements →
      q ≠ p →
      overlap_cond (f.elements.getD p dElt) (f.elements.getD q dElt) →
      (q : Int) ∈ ((Ffff.validate_element_table f).1.collisions.getD p []) := by
    intro p q hp hq hqp hov'
    have hcolls : (Ffff.validate_element_table f).1.collisions =
        (table_scan f.elements f.element_location_min f.element_location_max
          (2 * hbsD f.erase_block_size) f.elements 0).1 := rfl
    rw [hcolls, table_scan_row _ _ _ _ f.elements 0 p hp]
    apply List.mem_append_right
    have hmem := element_scan_mem (f.elements.getD p dElt) (0 + p)
      f.elements 0 q (by omega)
      (by simpa using (live_of_lt_liveCount f.elements q hq).2)
      (fun k hk _ => by
        have : k < liveCount f.elements := by omega
        simpa using (live_of_lt_liveCount f.elements k this).1)
      (by omega)
      (by simpa using hov')
    exact hmem
  exact ⟨main i j hi hj (Ne.symm hij) hov,
    main j i hj hi hij (overlap_comm hov)⟩

/-- C6 witness: the spec's example elements A at [0x1000, 0x1100) and B at
[0x1080, 0x1180) are reported as colliding with each other. -/
theorem C6_collision_symmetry_witness :
    (1 : Int) ∈ ((Ffff.validate_element_table f6col).1.collisions.getD 0 []) ∧
    (0 : Int) ∈ ((Ffff.validate_element_table f6col).1.collisions.getD 1 []) :=
  C6_collision_symmetry f6col 0 1 (by decide) (by decide) (by decide)
    (by decide)
